import Mathlib

/-!
Shallow embedding of the ct-daemon-go market-data aggregator, together with
theorems settling the specification claims about it.

Modelling conventions used throughout this file:

* Go float64 prices and volumes are modelled as rationals.  None of the
  properties proved here depends on IEEE-754 rounding; they only depend on
  which strings parse as numbers and on order comparisons.
* JSON values (the result of encoding/json decoding into interface values)
  are modelled by the inductive type Json below.  The byte-level JSON
  scanner of the standard library is treated as an external collaborator:
  where a parser works directly on raw bytes the byte-to-Json step is a
  parameter of the model.  Decoding a Json value into a concrete Go struct
  (field lookup, zero values for absent fields, errors on mismatched
  types) is modelled structurally by the decode functions below.
* Byte strings are lists of naturals (one per byte).
* Wall-clock timestamps are integers (milliseconds); calls to time.Now()
  become an explicit parameter named now.
* Go maps are association lists; where Go iterates over a map in random
  order the model fixes first-appearance order, which never affects a
  set-level statement proved here.
-/

namespace CtDaemon

/-- Json models the values produced by encoding/json when decoding into an
interface value: null, booleans, numbers, strings, arrays and objects. -/
inductive Json where
  | null : Json
  | bool (b : Bool) : Json
  | num (q : ℚ) : Json
  | str (s : String) : Json
  | arr (elems : List Json) : Json
  | obj (fields : List (String × Json)) : Json

/-- assocLookup finds the value stored under a key in an association list,
modelling a Go map read. -/
def assocLookup {α : Type} (l : List (String × α)) (k : String) : Option α :=
  match l with
  | [] => none
  | (k', v) :: rest => if k' = k then some v else assocLookup rest k

/-- updateAssoc replaces the value stored under a key, modelling a Go map
write to an existing key. -/
def updateAssoc {α : Type} (l : List (String × α)) (k : String) (v : α) :
    List (String × α) :=
  l.map (fun kv => if kv.1 = k then (kv.1, v) else kv)

/-! Models of the Go standard-library string helpers the parsers call.
They are implemented structurally over the character list of a string (all
symbol and channel data handled here is ASCII, so character counts agree
with Go byte lengths and the ASCII case maps agree with Go's Unicode
ones). -/

/-- goLength models len(s). -/
def goLength (s : String) : Nat :=
  s.data.length

/-- asciiUpperChar uppercases one ASCII character. -/
def asciiUpperChar (c : Char) : Char :=
  if 97 ≤ c.toNat ∧ c.toNat ≤ 122 then Char.ofNat (c.toNat - 32) else c

/-- asciiLowerChar lowercases one ASCII character. -/
def asciiLowerChar (c : Char) : Char :=
  if 65 ≤ c.toNat ∧ c.toNat ≤ 90 then Char.ofNat (c.toNat + 32) else c

/-- goToUpper models strings.ToUpper. -/
def goToUpper (s : String) : String :=
  String.mk (s.data.map asciiUpperChar)

/-- goToLower models strings.ToLower. -/
def goToLower (s : String) : String :=
  String.mk (s.data.map asciiLowerChar)

/-- isSpaceChar recognises the whitespace trimmed by strings.TrimSpace. -/
def isSpaceChar (c : Char) : Bool :=
  c = ' ' ∨ c = '\t' ∨ c = '\n' ∨ c = '\r'

/-- goTrim models strings.TrimSpace. -/
def goTrim (s : String) : String :=
  String.mk (((s.data.dropWhile isSpaceChar).reverse.dropWhile isSpaceChar).reverse)

/-- splitOnAux scans left to right emitting a field at every non-overlapping
separator occurrence; the fuel argument (the input length at the top call)
only makes the recursion structural. -/
def splitOnAux (sep : List Char) : Nat → List Char → List Char → List (List Char)
  | _, [], acc => [acc.reverse]
  | 0, l, acc => [acc.reverse ++ l]
  | fuel + 1, c :: rest, acc =>
    if sep.isPrefixOf (c :: rest) then
      acc.reverse :: splitOnAux sep fuel (List.drop sep.length (c :: rest)) []
    else splitOnAux sep fuel rest (c :: acc)

/-- goSplitOn models strings.Split for a nonempty separator. -/
def goSplitOn (s sep : String) : List String :=
  if sep = "" then [s]
  else (splitOnAux sep.data s.data.length s.data []).map String.mk

/-- containsAux scans for any position where the pattern is a prefix. -/
def containsAux (sub : List Char) : List Char → Bool
  | [] => sub.isEmpty
  | c :: rest => sub.isPrefixOf (c :: rest) || containsAux sub rest

/-- goContains models strings.Contains (and the contains helper of
internal/market/parsers/utils.go, which just forwards to it). -/
def goContains (s sub : String) : Bool :=
  containsAux sub.data s.data

/-- goHasSuffix models strings.HasSuffix. -/
def goHasSuffix (s suf : String) : Bool :=
  suf.data.isSuffixOf s.data

/-- goDrop models s[n:] on ASCII data. -/
def goDrop (s : String) (n : Nat) : String :=
  String.mk (s.data.drop n)

/-- goTake models s[:n] on ASCII data. -/
def goTake (s : String) (n : Nat) : String :=
  String.mk (s.data.take n)

/-- goDropRight models s[:len(s)-n] on ASCII data. -/
def goDropRight (s : String) (n : Nat) : String :=
  String.mk (s.data.take (s.data.length - n))

/-! Model of the numeric-string conversion used by the parsers.

strconv.ParseFloat is an external library function; parseDecimal models the
finite decimal numerals it accepts: an optional sign, a mantissa with at
least one digit (either side of an optional decimal point may be empty but
not both), and an optional exponent part.  The exact rational value of the
numeral is returned (the claims settled here never depend on IEEE-754
rounding).  ParseFloat's exotic inputs (hexadecimal floats, underscore
separators, Inf, NaN) are outside the model; a string outside the grammar
yields none, modelling Go returning the zero value together with an
error. -/

/-- digitsVal reads a list of decimal digit characters as a natural. -/
def digitsVal (l : List Char) : Nat :=
  l.foldl (fun acc c => acc * 10 + (c.toNat - '0'.toNat)) 0

/-- ratScale is the exact rational n times ten to the e. -/
def ratScale (n : Int) (e : Int) : ℚ :=
  if 0 ≤ e then ((n * 10 ^ e.toNat : Int) : ℚ)
  else mkRat n (10 ^ (-e).toNat)

/-- parseExpPart parses the characters after the e of an exponent:
an optional sign followed by a nonempty run of digits and nothing else. -/
def parseExpPart (cs : List Char) : Option Int :=
  let (negExp, cs1) : Bool × List Char :=
    match cs with
    | '+' :: rest => (false, rest)
    | '-' :: rest => (true, rest)
    | _ => (false, cs)
  let ds := cs1.takeWhile (fun c => c.isDigit)
  let rest := cs1.dropWhile (fun c => c.isDigit)
  if ds.isEmpty then none
  else if rest.isEmpty then
    some (if negExp then -(digitsVal ds : Int) else (digitsVal ds : Int))
  else none

/-- parseDecimal parses a decimal numeral to its exact rational value,
returning none on any string outside the grammar.  The mantissa digits are
read as one integer (the digits before and after the point concatenated)
and the point and exponent only shift the power of ten. -/
def parseDecimal (s : String) : Option ℚ :=
  let cs := s.data
  let (neg, cs1) : Bool × List Char :=
    match cs with
    | '+' :: rest => (false, rest)
    | '-' :: rest => (true, rest)
    | _ => (false, cs)
  let intDigits := cs1.takeWhile (fun c => c.isDigit)
  let rest1 := cs1.dropWhile (fun c => c.isDigit)
  let (fracDigits, rest2) : List Char × List Char :=
    match rest1 with
    | '.' :: r => (r.takeWhile (fun c => c.isDigit), r.dropWhile (fun c => c.isDigit))
    | _ => ([], rest1)
  if intDigits.isEmpty && fracDigits.isEmpty then none
  else
    let scaled : Int := (digitsVal (intDigits ++ fracDigits) : Int)
    let signedNum : Int := if neg then -scaled else scaled
    match rest2 with
    | [] => some (ratScale signedNum (-(fracDigits.length : Int)))
    | e :: r =>
      if e = 'e' ∨ e = 'E' then
        match parseExpPart r with
        | some expVal => some (ratScale signedNum (expVal - fracDigits.length))
        | none => none
      else none

/-- parseFloat mirrors the helper in internal/market/parsers/utils.go:
it calls the library conversion and discards the error, so any string the
conversion rejects is coerced to zero. -/
def parseFloat (s : String) : ℚ :=
  (parseDecimal s).getD 0

/-! Symbol registry (internal/market/symbols.go). -/

/-- UnifiedSymbol mirrors market.UnifiedSymbol. -/
structure UnifiedSymbol where
  baseCurrency : String
  quoteCurrency : String
  marketType : String
  symbol : String
  originalSymbol : String
deriving DecidableEq, Repr

/-- formatUnifiedSymbol mirrors market.formatUnifiedSymbol: spot symbols are
BASE/QUOTE, futures symbols are BASEQUOTE, anything else defaults to the
spot form. -/
def formatUnifiedSymbol (base quote marketType : String) : String :=
  let b := goToUpper base
  let q := goToUpper quote
  let mt := goToLower marketType
  if mt = "spot" then b ++ "/" ++ q
  else if mt = "futures" ∨ mt = "future" then b ++ q
  else b ++ "/" ++ q

/-- NewUnifiedSymbol mirrors market.NewUnifiedSymbol. -/
def NewUnifiedSymbol (baseCurrency quoteCurrency marketType : String) : UnifiedSymbol :=
  { baseCurrency := goToUpper baseCurrency
    quoteCurrency := goToUpper quoteCurrency
    marketType := goToLower marketType
    symbol := formatUnifiedSymbol baseCurrency quoteCurrency marketType
    originalSymbol := "" }

/-- commonQuotes is the fixed quote-currency list of
market.splitConcatenatedSymbol, in the exact source order. -/
def commonQuotes : List String :=
  ["USDT", "USDC", "BUSD", "TUSD", "USDP",
   "BTC", "ETH", "BNB", "USD", "EUR", "GBP",
   "DAI", "FDUSD", "BTTC", "TRX"]

/-- splitConcatenatedSymbol mirrors market.splitConcatenatedSymbol: the
first element of commonQuotes that is a proper suffix wins; otherwise the
heuristic fallback splits by length. -/
def splitConcatenatedSymbol (symbol : String) : String × String :=
  match commonQuotes.find? (fun q =>
      goHasSuffix symbol q && decide (goLength q < goLength symbol)) with
  | some q => (goDropRight symbol (goLength q), q)
  | none =>
    if 6 ≤ goLength symbol then
      if goLength symbol = 6 then (goTake symbol 3, goDrop symbol 3)
      else if goHasSuffix symbol "USDT" then (goDropRight symbol 4, "USDT")
      else if 6 ≤ goLength symbol then
        (goDropRight symbol 3, goDrop symbol (goLength symbol - 3))
      else ("", "")
    else ("", "")

/-- ParseSymbol mirrors market.ParseSymbol: it uppercases and trims the
input, splits on a slash, hyphen or underscore separator, and otherwise
falls back to splitConcatenatedSymbol. -/
def ParseSymbol (symbol marketType : String) : Except String UnifiedSymbol :=
  let sym := goToUpper (goTrim symbol)
  let mt := goToLower (goTrim marketType)
  let parts : Except String (String × String) :=
    if goContains sym "/" then
      match goSplitOn sym "/" with
      | [b, q] => .ok (b, q)
      | _ => .error ("invalid symbol format with slash: " ++ sym)
    else if goContains sym "-" then
      match goSplitOn sym "-" with
      | [b, q] => .ok (b, q)
      | _ => .error ("invalid symbol format with hyphen: " ++ sym)
    else if goContains sym "_" then
      match goSplitOn sym "_" with
      | [b, q] => .ok (b, q)
      | _ => .error ("invalid symbol format with underscore: " ++ sym)
    else
      let (b, q) := splitConcatenatedSymbol sym
      if b = "" ∨ q = "" then .error ("cannot parse concatenated symbol: " ++ sym)
      else .ok (b, q)
  match parts with
  | .error e => .error e
  | .ok (b, q) => .ok { NewUnifiedSymbol b q mt with originalSymbol := sym }

/-- BinanceFromExchangeSymbol mirrors BinanceSymbolConverter.FromExchangeSymbol. -/
def BinanceFromExchangeSymbol (exchangeSymbol marketType : String) :
    Except String UnifiedSymbol :=
  ParseSymbol exchangeSymbol marketType

/-- KucoinFromExchangeSymbol mirrors KucoinSymbolConverter.FromExchangeSymbol:
futures symbols lose a trailing M before parsing. -/
def KucoinFromExchangeSymbol (exchangeSymbol marketType : String) :
    Except String UnifiedSymbol :=
  let sym :=
    if marketType = "futures" && goHasSuffix exchangeSymbol "M" then
      goDropRight exchangeSymbol 1
    else exchangeSymbol
  ParseSymbol sym marketType

/-- ConvertToUnified mirrors SymbolRegistry.ConvertToUnified for the default
registry built by NewSymbolRegistry: kucoin has a dedicated converter,
binance is registered explicitly, and every other venue falls back to the
default (binance-style) converter. -/
def ConvertToUnified (exchange exchangeSymbol marketType : String) :
    Except String UnifiedSymbol :=
  if exchange = "kucoin" then KucoinFromExchangeSymbol exchangeSymbol marketType
  else BinanceFromExchangeSymbol exchangeSymbol marketType

/-! Unified message schema (internal/market, unnamed/part_003).
The Raw field carrying the original frame and the Go time.Time values are
represented as described in the header (timestamps as integer milliseconds,
Raw omitted since no logic reads it). -/

/-- OrderBookUpdateType mirrors market.OrderBookUpdateType. -/
inductive OrderBookUpdateType where
  | snapshot : OrderBookUpdateType
  | incremental : OrderBookUpdateType
deriving DecidableEq, Repr

/-- PriceLevel mirrors market.PriceLevel. -/
structure PriceLevel where
  price : ℚ
  volume : ℚ
deriving DecidableEq, Repr

/-- UnifiedOrderBook mirrors market.UnifiedOrderBook. -/
structure UnifiedOrderBook where
  symbol : String
  unifiedSymbol : UnifiedSymbol
  timestamp : Int
  bids : List PriceLevel
  asks : List PriceLevel
  depth : Nat
  updateType : OrderBookUpdateType
deriving DecidableEq, Repr

/-- UnifiedTicker mirrors market.UnifiedTicker (the field named open in Go
is openPrice-free here: only derived fields appear in the ticker itself). -/
structure UnifiedTicker where
  symbol : String
  unifiedSymbol : UnifiedSymbol
  timestamp : Int
  lastPrice : ℚ
  bestBid : ℚ
  bestAsk : ℚ
  volume24h : ℚ
  change24h : ℚ
  changePct24h : ℚ
  high24h : ℚ
  low24h : ℚ
deriving DecidableEq, Repr

/-- UnifiedBestPrice mirrors market.UnifiedBestPrice. -/
structure UnifiedBestPrice where
  symbol : String
  unifiedSymbol : UnifiedSymbol
  timestamp : Int
  bestBid : ℚ
  bestAsk : ℚ
  bidVolume : ℚ
  askVolume : ℚ
deriving DecidableEq, Repr

/-- MessageType mirrors market.MessageType. -/
inductive MessageType where
  | orderbook : MessageType
  | ticker : MessageType
  | bestPrice : MessageType
  | trade : MessageType
  | orderEvent : MessageType
  | kline : MessageType
deriving DecidableEq, Repr

/-- MessageData is the typed payload stored in the Data interface field of
market.UnifiedMessage (only the variants built by the embedded parsers). -/
inductive MessageData where
  | orderbook (ob : UnifiedOrderBook) : MessageData
  | ticker (t : UnifiedTicker) : MessageData
  | bestPrice (bp : UnifiedBestPrice) : MessageData
deriving DecidableEq, Repr

/-- UnifiedMessage mirrors market.UnifiedMessage. -/
structure UnifiedMessage where
  exchange : String
  symbol : String
  unifiedSymbol : UnifiedSymbol
  messageType : MessageType
  timestamp : Int
  data : MessageData
  pairID : Int
deriving DecidableEq, Repr

/-- levelOfRow models one iteration of the level-building loop every parser
repeats over [][]string rows: a row with at least two entries becomes a
PriceLevel through parseFloat, shorter rows are skipped. -/
def levelOfRow (row : List String) : Option PriceLevel :=
  match row with
  | p :: v :: _ => some { price := parseFloat p, volume := parseFloat v }
  | _ => none

/-- levelsOfStringRows models the whole loop. -/
def levelsOfStringRows (rows : List (List String)) : List PriceLevel :=
  rows.filterMap levelOfRow

/-- levelOfNumRow is the [][]float64 variant used by the HTX parser. -/
def levelOfNumRow (row : List ℚ) : Option PriceLevel :=
  match row with
  | p :: v :: _ => some { price := p, volume := v }
  | _ => none

/-- levelsOfNumRows models the HTX level loop. -/
def levelsOfNumRows (rows : List (List ℚ)) : List PriceLevel :=
  rows.filterMap levelOfNumRow

/-! Structural decoding of Json values into the Go structs the parsers
unmarshal into.  Absent object fields and JSON null keep the Go zero value;
a value of the wrong JSON type makes the whole decode fail, which models
json.Unmarshal returning an error. -/

/-- jsonString decodes a Json value sitting in a Go string slot. -/
def jsonString (j : Json) : Option String :=
  match j with
  | .str s => some s
  | .null => some ""
  | _ => none

/-- jsonNum decodes a Json value sitting in a Go float64 slot. -/
def jsonNum (j : Json) : Option ℚ :=
  match j with
  | .num q => some q
  | .null => some 0
  | _ => none

/-- jsonInt decodes a Json value sitting in a Go int64 slot (a fractional
number is a decode error). -/
def jsonInt (j : Json) : Option Int :=
  match j with
  | .num q => if q.den = 1 then some q.num else none
  | .null => some 0
  | _ => none

/-- jsonStringRow decodes one []string entry. -/
def jsonStringRow (j : Json) : Option (List String) :=
  match j with
  | .arr xs => xs.mapM jsonString
  | .null => some []
  | _ => none

/-- jsonStringRows decodes a [][]string slot. -/
def jsonStringRows (j : Json) : Option (List (List String)) :=
  match j with
  | .arr xs => xs.mapM jsonStringRow
  | .null => some []
  | _ => none

/-- jsonNumRow decodes one []float64 entry. -/
def jsonNumRow (j : Json) : Option (List ℚ) :=
  match j with
  | .arr xs => xs.mapM jsonNum
  | .null => some []
  | _ => none

/-- jsonNumRows decodes a [][]float64 slot. -/
def jsonNumRows (j : Json) : Option (List (List ℚ)) :=
  match j with
  | .arr xs => xs.mapM jsonNumRow
  | .null => some []
  | _ => none

/-- fieldString reads a struct string field from a decoded object. -/
def fieldString (fields : List (String × Json)) (name : String) : Option String :=
  match assocLookup fields name with
  | none => some ""
  | some j => jsonString j

/-- fieldInt reads a struct int64 field from a decoded object. -/
def fieldInt (fields : List (String × Json)) (name : String) : Option Int :=
  match assocLookup fields name with
  | none => some 0
  | some j => jsonInt j

/-- fieldNum reads a struct float64 field from a decoded object. -/
def fieldNum (fields : List (String × Json)) (name : String) : Option ℚ :=
  match assocLookup fields name with
  | none => some 0
  | some j => jsonNum j

/-- fieldStringRows reads a struct [][]string field from a decoded object. -/
def fieldStringRows (fields : List (String × Json)) (name : String) :
    Option (List (List String)) :=
  match assocLookup fields name with
  | none => some []
  | some j => jsonStringRows j

/-- fieldNumRows reads a struct [][]float64 field from a decoded object. -/
def fieldNumRows (fields : List (String × Json)) (name : String) :
    Option (List (List ℚ)) :=
  match assocLookup fields name with
  | none => some []
  | some j => jsonNumRows j

/-! CoinEx parser (internal/market/parsers of the repository). -/

/-- CoinexWebSocketMessage mirrors parsers.CoinexWebSocketMessage after
json.Unmarshal: Method and ID with their zero defaults and Params as the
raw decoded JSON value. -/
structure CoinexWebSocketMessage where
  method : String
  params : Json
  id : Int

/-- CoinexDepthData mirrors parsers.CoinexDepthData. -/
structure CoinexDepthData where
  asks : List (List String)
  bids : List (List String)
  last : String
  time : Int
  symbol : String
deriving DecidableEq, Repr

/-- decodeCoinexDepthData models the json.Marshal plus json.Unmarshal round
trip of the depth params entry into CoinexDepthData. -/
def decodeCoinexDepthData (j : Json) : Option CoinexDepthData :=
  match j with
  | .null => some { asks := [], bids := [], last := "", time := 0, symbol := "" }
  | .obj fields => do
    let asks ← fieldStringRows fields "asks"
    let bids ← fieldStringRows fields "bids"
    let last ← fieldString fields "last"
    let time ← fieldInt fields "time"
    let symbol ← fieldString fields "symbol"
    some { asks := asks, bids := bids, last := last, time := time, symbol := symbol }
  | _ => none

namespace CoinexParser

/-- parseDepthUpdate mirrors CoinexParser.parseDepthUpdate: params must be
an array of at least three entries holding the is-full flag, the depth
object and the symbol; the flag selects snapshot versus incremental and the
symbol is converted through the registry with market type spot. -/
def parseDepthUpdate (wsMsg : CoinexWebSocketMessage) (now : Int) :
    Except String (Option UnifiedMessage) :=
  match wsMsg.params with
  | .arr (p0 :: p1 :: p2 :: _) =>
    match p0 with
    | .bool isFull =>
      match p2 with
      | .str symbol =>
        match decodeCoinexDepthData p1 with
        | none => .error "failed to parse CoinEx depth data"
        | some depthData =>
          let updateType :=
            if isFull then OrderBookUpdateType.snapshot
            else OrderBookUpdateType.incremental
          match ConvertToUnified "coinex" symbol "spot" with
          | .error e => .error ("failed to convert CoinEx symbol: " ++ e)
          | .ok unifiedSymbol =>
            let bids := levelsOfStringRows depthData.bids
            let asks := levelsOfStringRows depthData.asks
            let orderbook : UnifiedOrderBook :=
              { symbol := unifiedSymbol.symbol
                unifiedSymbol := unifiedSymbol
                timestamp := now
                bids := bids
                asks := asks
                depth := bids.length + asks.length
                updateType := updateType }
            .ok (some
              { exchange := "coinex"
                symbol := unifiedSymbol.symbol
                unifiedSymbol := unifiedSymbol
                messageType := .orderbook
                timestamp := now
                data := .orderbook orderbook
                pairID := 0 })
      | _ => .error "invalid CoinEx symbol in depth update"
    | _ => .error "invalid CoinEx is-full flag"
  | _ => .error "invalid CoinEx depth update params format"

/-- stateFloatField models the per-field extraction in parseStateUpdate: a
field that exists and is a string goes through parseFloat, anything else
leaves the zero value. -/
def stateFloatField (fields : List (String × Json)) (name : String) : ℚ :=
  match assocLookup fields name with
  | some (.str s) => parseFloat s
  | _ => 0

/-- parseStateUpdate mirrors CoinexParser.parseStateUpdate: params[0] is an
object keyed by symbol; the first entry is used (Go iterates the map in an
unspecified order, which coincides with this choice for the usual
single-symbol frames). -/
def parseStateUpdate (wsMsg : CoinexWebSocketMessage) (now : Int) :
    Except String (Option UnifiedMessage) :=
  match wsMsg.params with
  | .arr (p0 :: _) =>
    match p0 with
    | .obj [] => .error "no valid symbol data found in CoinEx state update"
    | .obj ((sym, data) :: _) =>
      match data with
      | .obj stateFields =>
        if sym = "" then .error "no valid symbol data found in CoinEx state update"
        else
          match ConvertToUnified "coinex" sym "spot" with
          | .error e => .error ("failed to convert CoinEx symbol: " ++ e)
          | .ok unifiedSymbol =>
            let ticker : UnifiedTicker :=
              { symbol := unifiedSymbol.symbol
                unifiedSymbol := unifiedSymbol
                timestamp := now
                lastPrice := stateFloatField stateFields "last"
                bestBid := 0
                bestAsk := 0
                volume24h := stateFloatField stateFields "volume"
                change24h := 0
                changePct24h := 0
                high24h := stateFloatField stateFields "high"
                low24h := stateFloatField stateFields "low" }
            .ok (some
              { exchange := "coinex"
                symbol := unifiedSymbol.symbol
                unifiedSymbol := unifiedSymbol
                messageType := .ticker
                timestamp := now
                data := .ticker ticker
                pairID := 0 })
      | _ => .error "invalid CoinEx state data format for symbol"
    | _ => .error "invalid CoinEx state data object format"
  | _ => .error "invalid CoinEx state update params format"

/-- ParseMessage mirrors CoinexParser.ParseMessage: route on the method
field, drop server pings and id-carrying responses, reject unknown
methods. -/
def ParseMessage (wsMsg : CoinexWebSocketMessage) (now : Int) :
    Except String (Option UnifiedMessage) :=
  if wsMsg.method = "depth.update" then parseDepthUpdate wsMsg now
  else if wsMsg.method = "state.update" then parseStateUpdate wsMsg now
  else if wsMsg.method = "server.ping" then .ok none
  else if wsMsg.id ≠ 0 then .ok none
  else .error ("unknown CoinEx method: " ++ wsMsg.method)

end CoinexParser

/-! Poloniex parser (internal/market/parsers/poloniex.go). -/

/-- PoloniexWebSocketMessage mirrors parsers.PoloniexWebSocketMessage:
Channel with its zero default and Data as the raw decoded JSON value. -/
structure PoloniexWebSocketMessage where
  channel : String
  data : Json

/-- PoloniexOrderBookUpdate mirrors parsers.PoloniexOrderBookUpdate. -/
structure PoloniexOrderBookUpdate where
  symbol : String
  createTime : Int
  asks : List (List String)
  bids : List (List String)
  id : Int
  ts : Int
deriving DecidableEq, Repr

/-- decodePoloniexOrderBookUpdate models unmarshalling one data entry into
PoloniexOrderBookUpdate. -/
def decodePoloniexOrderBookUpdate (j : Json) : Option PoloniexOrderBookUpdate :=
  match j with
  | .null => some { symbol := "", createTime := 0, asks := [], bids := [], id := 0, ts := 0 }
  | .obj fields => do
    let symbol ← fieldString fields "symbol"
    let createTime ← fieldInt fields "createTime"
    let asks ← fieldStringRows fields "asks"
    let bids ← fieldStringRows fields "bids"
    let id ← fieldInt fields "id"
    let ts ← fieldInt fields "ts"
    some { symbol := symbol, createTime := createTime, asks := asks, bids := bids,
           id := id, ts := ts }
  | _ => none

/-- PoloniexTickerUpdate mirrors parsers.PoloniexTickerUpdate (only the
fields the ticker code reads are listed; the remaining string fields decode
the same way and never flow into the output). -/
structure PoloniexTickerUpdate where
  symbol : String
  openField : String
  low : String
  high : String
  close : String
  quantity : String
  bid : String
  ask : String
deriving DecidableEq, Repr

/-- decodePoloniexTickerUpdate models unmarshalling one data entry into
PoloniexTickerUpdate. -/
def decodePoloniexTickerUpdate (j : Json) : Option PoloniexTickerUpdate :=
  match j with
  | .null => some { symbol := "", openField := "", low := "", high := "", close := "",
                    quantity := "", bid := "", ask := "" }
  | .obj fields => do
    let symbol ← fieldString fields "symbol"
    let openField ← fieldString fields "open"
    let low ← fieldString fields "low"
    let high ← fieldString fields "high"
    let close ← fieldString fields "close"
    let quantity ← fieldString fields "quantity"
    let bid ← fieldString fields "bid"
    let ask ← fieldString fields "ask"
    some { symbol := symbol, openField := openField, low := low, high := high,
           close := close, quantity := quantity, bid := bid, ask := ask }
  | _ => none

namespace PoloniexParser

/-- dataEntry models the shared shape handling of both Poloniex parse
functions: an array data field uses its first element (an empty array is an
error), any other value is decoded directly. -/
def dataEntry (data : Json) : Except String Json :=
  match data with
  | .arr [] => .error "empty Poloniex data"
  | .arr (x :: _) => .ok x
  | other => .ok other

/-- parseOrderBook mirrors PoloniexParser.parseOrderBook; every frame is an
incremental update. -/
def parseOrderBook (wsMsg : PoloniexWebSocketMessage) (now : Int) :
    Except String (Option UnifiedMessage) :=
  match dataEntry wsMsg.data with
  | .error _ => .error "empty Poloniex orderbook data"
  | .ok entry =>
    match decodePoloniexOrderBookUpdate entry with
    | none => .error "failed to parse Poloniex orderbook update"
    | some u =>
      match ConvertToUnified "poloniex" u.symbol "spot" with
      | .error e => .error ("failed to convert Poloniex symbol: " ++ e)
      | .ok unifiedSymbol =>
        let bids := levelsOfStringRows u.bids
        let asks := levelsOfStringRows u.asks
        let orderbook : UnifiedOrderBook :=
          { symbol := unifiedSymbol.symbol
            unifiedSymbol := unifiedSymbol
            timestamp := now
            bids := bids
            asks := asks
            depth := bids.length + asks.length
            updateType := .incremental }
        .ok (some
          { exchange := "poloniex"
            symbol := unifiedSymbol.symbol
            unifiedSymbol := unifiedSymbol
            messageType := .orderbook
            timestamp := now
            data := .orderbook orderbook
            pairID := 0 })

/-- parseTicker mirrors PoloniexParser.parseTicker, including the explicit
division guard on the open price. -/
def parseTicker (wsMsg : PoloniexWebSocketMessage) (now : Int) :
    Except String (Option UnifiedMessage) :=
  match dataEntry wsMsg.data with
  | .error _ => .error "empty Poloniex ticker data"
  | .ok entry =>
    match decodePoloniexTickerUpdate entry with
    | none => .error "failed to parse Poloniex ticker update"
    | some t =>
      match ConvertToUnified "poloniex" t.symbol "spot" with
      | .error e => .error ("failed to convert Poloniex symbol: " ++ e)
      | .ok unifiedSymbol =>
        let closePrice := parseFloat t.close
        let openPrice := parseFloat t.openField
        let change24h := closePrice - openPrice
        let changePct24h := if openPrice ≠ 0 then change24h / openPrice * 100 else 0
        let ticker : UnifiedTicker :=
          { symbol := unifiedSymbol.symbol
            unifiedSymbol := unifiedSymbol
            timestamp := now
            lastPrice := closePrice
            bestBid := parseFloat t.bid
            bestAsk := parseFloat t.ask
            volume24h := parseFloat t.quantity
            change24h := change24h
            changePct24h := changePct24h
            high24h := parseFloat t.high
            low24h := parseFloat t.low }
        .ok (some
          { exchange := "poloniex"
            symbol := unifiedSymbol.symbol
            unifiedSymbol := unifiedSymbol
            messageType := .ticker
            timestamp := now
            data := .ticker ticker
            pairID := 0 })

/-- ParseMessage mirrors PoloniexParser.ParseMessage: a channel containing
book is an order book, a channel containing ticker is a ticker, anything
else is an error. -/
def ParseMessage (wsMsg : PoloniexWebSocketMessage) (now : Int) :
    Except String (Option UnifiedMessage) :=
  if goContains wsMsg.channel "book" then parseOrderBook wsMsg now
  else if goContains wsMsg.channel "ticker" then parseTicker wsMsg now
  else .error ("unknown Poloniex channel: " ++ wsMsg.channel)

end PoloniexParser

/-! HTX parser (unnamed/part_004) and the ping answering side of the HTX
adapter (internal/exchange/htx_adapter.go).  Raw frames are byte lists; the
gzip inflater (compress/gzip) and the byte-level JSON reader
(encoding/json) are external collaborators passed as the inflate and
decode parameters. -/

/-- hasGzipMagic checks the two-byte gzip magic 0x1f 0x8b exactly as
HTXParser.decompressGzip does. -/
def hasGzipMagic (data : List Nat) : Bool :=
  match data with
  | b0 :: b1 :: _ => b0 == 0x1f && b1 == 0x8b
  | _ => false

/-- HTXWebSocketMessage mirrors parsers.HTXWebSocketMessage. -/
structure HTXWebSocketMessage where
  ch : String
  ts : Int
  tick : Json
  id : String
  rep : String

/-- decodeHTXWebSocketMessage models unmarshalling a frame into
HTXWebSocketMessage. -/
def decodeHTXWebSocketMessage (j : Json) : Option HTXWebSocketMessage :=
  match j with
  | .null => some { ch := "", ts := 0, tick := Json.null, id := "", rep := "" }
  | .obj fields => do
    let ch ← fieldString fields "ch"
    let ts ← fieldInt fields "ts"
    let tick := (assocLookup fields "tick").getD Json.null
    let id ← fieldString fields "id"
    let rep ← fieldString fields "rep"
    some { ch := ch, ts := ts, tick := tick, id := id, rep := rep }
  | _ => none

/-- HTXOrderBookTick mirrors parsers.HTXOrderBookTick. -/
structure HTXOrderBookTick where
  id : Int
  ts : Int
  version : Int
  bids : List (List ℚ)
  asks : List (List ℚ)
deriving DecidableEq, Repr

/-- decodeHTXOrderBookTick models the marshal plus unmarshal round trip of
the tick field into HTXOrderBookTick. -/
def decodeHTXOrderBookTick (j : Json) : Option HTXOrderBookTick :=
  match j with
  | .null => some { id := 0, ts := 0, version := 0, bids := [], asks := [] }
  | .obj fields => do
    let id ← fieldInt fields "id"
    let ts ← fieldInt fields "ts"
    let version ← fieldInt fields "version"
    let bids ← fieldNumRows fields "bids"
    let asks ← fieldNumRows fields "asks"
    some { id := id, ts := ts, version := version, bids := bids, asks := asks }
  | _ => none

/-- HTXTickerTick mirrors parsers.HTXTickerTick (openPrice stands for the
Go field named open, which is a reserved word here). -/
structure HTXTickerTick where
  id : Int
  ts : Int
  openPrice : ℚ
  high : ℚ
  low : ℚ
  close : ℚ
  amount : ℚ
  vol : ℚ
  count : Int
  bid : ℚ
  bidSize : ℚ
  ask : ℚ
  askSize : ℚ
deriving DecidableEq, Repr

/-- decodeHTXTickerTick models the tick round trip into HTXTickerTick. -/
def decodeHTXTickerTick (j : Json) : Option HTXTickerTick :=
  match j with
  | .null => some { id := 0, ts := 0, openPrice := 0, high := 0, low := 0, close := 0,
                    amount := 0, vol := 0, count := 0, bid := 0, bidSize := 0,
                    ask := 0, askSize := 0 }
  | .obj fields => do
    let id ← fieldInt fields "id"
    let ts ← fieldInt fields "ts"
    let openPrice ← fieldNum fields "open"
    let high ← fieldNum fields "high"
    let low ← fieldNum fields "low"
    let close ← fieldNum fields "close"
    let amount ← fieldNum fields "amount"
    let vol ← fieldNum fields "vol"
    let count ← fieldInt fields "count"
    let bid ← fieldNum fields "bid"
    let bidSize ← fieldNum fields "bidSize"
    let ask ← fieldNum fields "ask"
    let askSize ← fieldNum fields "askSize"
    some { id := id, ts := ts, openPrice := openPrice, high := high, low := low,
           close := close, amount := amount, vol := vol, count := count, bid := bid,
           bidSize := bidSize, ask := ask, askSize := askSize }
  | _ => none

/-- HTXBBOTick mirrors parsers.HTXBBOTick. -/
structure HTXBBOTick where
  symbol : String
  ts : Int
  bid : ℚ
  bidSize : ℚ
  ask : ℚ
  askSize : ℚ
deriving DecidableEq, Repr

/-- decodeHTXBBOTick models the tick round trip into HTXBBOTick. -/
def decodeHTXBBOTick (j : Json) : Option HTXBBOTick :=
  match j with
  | .null => some { symbol := "", ts := 0, bid := 0, bidSize := 0, ask := 0, askSize := 0 }
  | .obj fields => do
    let symbol ← fieldString fields "symbol"
    let ts ← fieldInt fields "ts"
    let bid ← fieldNum fields "bid"
    let bidSize ← fieldNum fields "bidSize"
    let ask ← fieldNum fields "ask"
    let askSize ← fieldNum fields "askSize"
    some { symbol := symbol, ts := ts, bid := bid, bidSize := bidSize,
           ask := ask, askSize := askSize }
  | _ => none

/-- extractSymbolFromChannel mirrors HTXParser.extractSymbolFromChannel. -/
def extractSymbolFromChannel (channel : String) : String :=
  match goSplitOn channel "." with
  | p0 :: p1 :: _ => if p0 = "market" then goToUpper p1 else ""
  | _ => ""

namespace HTXParser

/-- decompressGzip mirrors HTXParser.decompressGzip: bytes without the gzip
magic pass through unchanged, bytes with it are handed to the inflater and
an inflater failure is wrapped into an error. -/
def decompressGzip (inflate : List Nat → Except String (List Nat))
    (data : List Nat) : Except String (List Nat) :=
  if hasGzipMagic data then
    match inflate data with
    | .ok d => .ok d
    | .error e => .error ("failed to decompress gzip data: " ++ e)
  else .ok data

/-- isPingPongMessage mirrors HTXParser.isPingPongMessage: a frame that
decodes to a JSON object with a ping or a pong key. -/
def isPingPongMessage (decode : List Nat → Option Json) (data : List Nat) : Bool :=
  match decode data with
  | some (.obj fields) =>
    (assocLookup fields "ping").isSome || (assocLookup fields "pong").isSome
  | _ => false

/-- parseOrderBook mirrors HTXParser.parseOrderBook; every depth frame is a
snapshot. -/
def parseOrderBook (wsMsg : HTXWebSocketMessage) (timestamp : Int) :
    Except String (Option UnifiedMessage) :=
  match decodeHTXOrderBookTick wsMsg.tick with
  | none => .error "failed to parse HTX orderbook tick"
  | some tickData =>
    let symbol := extractSymbolFromChannel wsMsg.ch
    if symbol = "" then .error ("failed to extract symbol from HTX channel: " ++ wsMsg.ch)
    else
      match ConvertToUnified "htx" symbol "spot" with
      | .error e => .error ("failed to convert HTX symbol: " ++ e)
      | .ok unifiedSymbol =>
        let bids := levelsOfNumRows tickData.bids
        let asks := levelsOfNumRows tickData.asks
        let orderbook : UnifiedOrderBook :=
          { symbol := unifiedSymbol.symbol
            unifiedSymbol := unifiedSymbol
            timestamp := timestamp
            bids := bids
            asks := asks
            depth := bids.length + asks.length
            updateType := .snapshot }
        .ok (some
          { exchange := "htx"
            symbol := unifiedSymbol.symbol
            unifiedSymbol := unifiedSymbol
            messageType := .orderbook
            timestamp := timestamp
            data := .orderbook orderbook
            pairID := 0 })

/-- parseTicker mirrors HTXParser.parseTicker.  The percentage change
divides by the open price; Go computes it on floats (yielding an infinity
when open is zero), the rational model makes that corner zero, and no
claim depends on it. -/
def parseTicker (wsMsg : HTXWebSocketMessage) (timestamp : Int) :
    Except String (Option UnifiedMessage) :=
  match decodeHTXTickerTick wsMsg.tick with
  | none => .error "failed to parse HTX ticker tick"
  | some t =>
    let symbol := extractSymbolFromChannel wsMsg.ch
    if symbol = "" then .error ("failed to extract symbol from HTX channel: " ++ wsMsg.ch)
    else
      match ConvertToUnified "htx" symbol "spot" with
      | .error e => .error ("failed to convert HTX symbol: " ++ e)
      | .ok unifiedSymbol =>
        let ticker : UnifiedTicker :=
          { symbol := unifiedSymbol.symbol
            unifiedSymbol := unifiedSymbol
            timestamp := timestamp
            lastPrice := t.close
            bestBid := t.bid
            bestAsk := t.ask
            volume24h := t.vol
            change24h := t.close - t.openPrice
            changePct24h := (t.close - t.openPrice) / t.openPrice * 100
            high24h := t.high
            low24h := t.low }
        .ok (some
          { exchange := "htx"
            symbol := unifiedSymbol.symbol
            unifiedSymbol := unifiedSymbol
            messageType := .ticker
            timestamp := timestamp
            data := .ticker ticker
            pairID := 0 })

/-- parseBBO mirrors HTXParser.parseBBO. -/
def parseBBO (wsMsg : HTXWebSocketMessage) (timestamp : Int) :
    Except String (Option UnifiedMessage) :=
  match decodeHTXBBOTick wsMsg.tick with
  | none => .error "failed to parse HTX BBO tick"
  | some bboData =>
    match ConvertToUnified "htx" bboData.symbol "spot" with
    | .error e => .error ("failed to convert HTX symbol: " ++ e)
    | .ok unifiedSymbol =>
      let bestPrice : UnifiedBestPrice :=
        { symbol := unifiedSymbol.symbol
          unifiedSymbol := unifiedSymbol
          timestamp := timestamp
          bestBid := bboData.bid
          bestAsk := bboData.ask
          bidVolume := bboData.bidSize
          askVolume := bboData.askSize }
      .ok (some
        { exchange := "htx"
          symbol := unifiedSymbol.symbol
          unifiedSymbol := unifiedSymbol
          messageType := .bestPrice
          timestamp := timestamp
          data := .bestPrice bestPrice
          pairID := 0 })

/-- processFrame is the body of HTXParser.ParseMessage after decompression:
drop ping and pong frames silently, decode the envelope, drop subscription
acks (an id with no channel) and empty channels, and route on the channel
name. -/
def processFrame (decode : List Nat → Option Json) (d : List Nat) (now : Int) :
    Except String (Option UnifiedMessage) :=
  if isPingPongMessage decode d then .ok none
  else
    match decode d with
    | none => .error "failed to parse HTX WebSocket message"
    | some j =>
      match decodeHTXWebSocketMessage j with
      | none => .error "failed to parse HTX WebSocket message"
      | some wsMsg =>
        let timestamp := if 0 < wsMsg.ts then wsMsg.ts else now
        if wsMsg.id ≠ "" ∧ wsMsg.ch = "" then .ok none
        else if goContains wsMsg.ch "depth" then parseOrderBook wsMsg timestamp
        else if goContains wsMsg.ch "ticker" then parseTicker wsMsg timestamp
        else if goContains wsMsg.ch "bbo" then parseBBO wsMsg timestamp
        else if wsMsg.ch = "" then .ok none
        else .error ("unknown HTX channel: " ++ wsMsg.ch)

/-- ParseMessage mirrors HTXParser.ParseMessage: decompress when the gzip
magic is present, then process the frame. -/
def ParseMessage (inflate : List Nat → Except String (List Nat))
    (decode : List Nat → Option Json) (rawData : List Nat) (now : Int) :
    Except String (Option UnifiedMessage) :=
  match decompressGzip inflate rawData with
  | .error e => .error ("failed to decompress message: " ++ e)
  | .ok d => processFrame decode d now

end HTXParser

namespace HtxAdapter

/-- handlePingPong mirrors HtxAdapter.handlePingPong: it reports whether
the frame was consumed as a ping or pong, and returns the pong frame the
adapter writes back for a ping (the actual socket write is external). -/
def handlePingPong (inflate : List Nat → Except String (List Nat))
    (decode : List Nat → Option Json) (data : List Nat) : Bool × Option Json :=
  match HTXParser.decompressGzip inflate data with
  | .error _ => (false, none)
  | .ok d =>
    match decode d with
    | some (.obj fields) =>
      match assocLookup fields "ping" with
      | some v => (true, some (Json.obj [("pong", v)]))
      | none =>
        match assocLookup fields "pong" with
        | some _ => (true, none)
        | none => (false, none)
    | _ => (false, none)

end HtxAdapter

/-! Message bus (package bus in unnamed/part_006).  A buffered Go channel
is modelled by its capacity and the messages currently queued; the
non-blocking select send appends when the buffer has room and drops
otherwise. -/

/-- BusQueue models one subscriber channel: its capacity and its queued
messages in FIFO order. -/
structure BusQueue where
  capacity : Nat
  buffer : List UnifiedMessage
deriving DecidableEq, Repr

/-- MessageBus mirrors bus.MessageBus: the topic-to-queues map. -/
structure MessageBus where
  subscribers : List (String × List BusQueue)
deriving DecidableEq, Repr

/-- enqueueNonBlocking models one select-with-default send into a buffered
channel: append when below capacity, otherwise leave the queue unchanged. -/
def enqueueNonBlocking (q : BusQueue) (msg : UnifiedMessage) : BusQueue :=
  if q.buffer.length < q.capacity then { q with buffer := q.buffer ++ [msg] }
  else q

namespace MessageBus

/-- Subscribe mirrors MessageBus.Subscribe: append a fresh empty queue of
the requested capacity under the topic. -/
def Subscribe (mb : MessageBus) (exchange : String) (bufferSize : Nat) : MessageBus :=
  match assocLookup mb.subscribers exchange with
  | some qs =>
    { subscribers := updateAssoc mb.subscribers exchange (qs ++ [{ capacity := bufferSize, buffer := [] }]) }
  | none =>
    { subscribers := mb.subscribers ++ [(exchange, [{ capacity := bufferSize, buffer := [] }])] }

/-- Publish mirrors MessageBus.Publish: with no subscribers for the topic
nothing happens; otherwise every queue under the topic receives one
non-blocking send, and the second component counts the full queues whose
message was dropped with a warning. -/
def Publish (mb : MessageBus) (exchange : String) (msg : UnifiedMessage) :
    MessageBus × Nat :=
  match assocLookup mb.subscribers exchange with
  | none => (mb, 0)
  | some qs =>
    if qs.isEmpty then (mb, 0)
    else
      ({ subscribers := updateAssoc mb.subscribers exchange (qs.map (fun q => enqueueNonBlocking q msg)) },
       (qs.filter (fun q => q.capacity ≤ q.buffer.length)).length)

end MessageBus

/-! Price sampler (PriceMonitor in cmd/ctdaemon/main.go).  The order book
cache is a map from pair id to the latest cached book; the persistent
price table is the list of committed rows, and the statement execution and
commit outcomes of the database driver are oracles passed in as
parameters. -/

/-- PriceMonitorPair mirrors the monitoring rows scanned by
getMonitoringPairs. -/
structure PriceMonitorPair where
  exchangeID : Int
  pairID : Int
  exchangeName : String
deriving DecidableEq, Repr

/-- PriceData mirrors the 23-column row built by collectPriceData. -/
structure PriceData where
  pairID : Int
  priceTimestamp : Int
  date : Int
  asks1Price : ℚ
  asks1Volume : ℚ
  asks2Price : ℚ
  asks2Volume : ℚ
  asks3Price : ℚ
  asks3Volume : ℚ
  asks4Price : ℚ
  asks4Volume : ℚ
  asks5Price : ℚ
  asks5Volume : ℚ
  bids1Price : ℚ
  bids1Volume : ℚ
  bids2Price : ℚ
  bids2Volume : ℚ
  bids3Price : ℚ
  bids3Volume : ℚ
  bids4Price : ℚ
  bids4Volume : ℚ
  bids5Price : ℚ
  bids5Volume : ℚ

/-- dayTruncate models timestamp.Truncate(24h) on millisecond timestamps. -/
def dayTruncate (ts : Int) : Int :=
  (ts / 86400000) * 86400000

/-- levelAt reads the i-th price level, defaulting to the zero level the Go
struct fields start from. -/
def levelAt (l : List PriceLevel) (i : Nat) : PriceLevel :=
  l.getD i { price := 0, volume := 0 }

namespace PriceMonitor

/-- collectPriceData mirrors PriceMonitor.collectPriceData: a pair with no
cached book, or whose cached book has an empty bid or ask side, yields no
row (Go returns an error that the tick loop downgrades to a warning);
otherwise the row carries the first five levels of each side in cached
order with the remaining columns left at zero. -/
def collectPriceData (orderBooks : Int → Option UnifiedOrderBook)
    (pair : PriceMonitorPair) (timestamp : Int) : Option PriceData :=
  match orderBooks pair.pairID with
  | none => none
  | some orderBook =>
    let bids := orderBook.bids
    let asks := orderBook.asks
    if bids.length = 0 ∨ asks.length = 0 then none
    else
      some
        { pairID := pair.pairID
          priceTimestamp := timestamp
          date := dayTruncate timestamp
          asks1Price := (levelAt asks 0).price
          asks1Volume := (levelAt asks 0).volume
          asks2Price := (levelAt asks 1).price
          asks2Volume := (levelAt asks 1).volume
          asks3Price := (levelAt asks 2).price
          asks3Volume := (levelAt asks 2).volume
          asks4Price := (levelAt asks 3).price
          asks4Volume := (levelAt asks 3).volume
          asks5Price := (levelAt asks 4).price
          asks5Volume := (levelAt asks 4).volume
          bids1Price := (levelAt bids 0).price
          bids1Volume := (levelAt bids 0).volume
          bids2Price := (levelAt bids 1).price
          bids2Volume := (levelAt bids 1).volume
          bids3Price := (levelAt bids 2).price
          bids3Volume := (levelAt bids 2).volume
          bids4Price := (levelAt bids 3).price
          bids4Volume := (levelAt bids 3).volume
          bids5Price := (levelAt bids 4).price
          bids5Volume := (levelAt bids 4).volume }

/-- collectRows is the row-collection loop of collectAndSavePrices: one
shared tick timestamp, pairs whose collection fails are skipped with a
warning. -/
def collectRows (orderBooks : Int → Option UnifiedOrderBook)
    (pairs : List PriceMonitorPair) (timestamp : Int) : List PriceData :=
  pairs.filterMap (fun p => collectPriceData orderBooks p timestamp)

/-- execInserts is the insert loop of savePriceData: it stops at the first
failing statement. -/
def execInserts (execOk : PriceData → Bool) : List PriceData → Bool
  | [] => true
  | pd :: rest => if execOk pd then execInserts execOk rest else false

/-- savePriceData mirrors PriceMonitor.savePriceData against a transactional
store: the committed table only grows at a successful commit, and any
earlier failure (begin, prepare, a statement, or the commit itself) leaves
it untouched because the deferred rollback discards the open transaction.
The boolean result is true exactly when the function returns nil. -/
def savePriceData (beginOk prepareOk : Bool) (execOk : PriceData → Bool)
    (commitOk : Bool) (committed : List PriceData)
    (priceDataList : List PriceData) : List PriceData × Bool :=
  if beginOk = false then (committed, false)
  else if prepareOk = false then (committed, false)
  else if execInserts execOk priceDataList then
    if commitOk then (committed ++ priceDataList, true) else (committed, false)
  else (committed, false)

end PriceMonitor

/-! Subscription supervisor (DataMonitor in internal/worker/data_monitor.go).
Workers live in a map keyed by the formatted string EXCHANGE|MARKET; a
worker is represented by its subscription parameters.  The catalog lookup
GetExchangeByName is the getExchange oracle.  Worker Start errors happen in
a spawned goroutine and never remove the worker from the map, and worker
Stop is modelled as succeeding. -/

/-- ExchangeRecord models the db.Exchange fields the supervisor consumes. -/
structure ExchangeRecord where
  id : Int
  name : String
deriving DecidableEq, Repr

/-- DataMonitorPair mirrors db.DataMonitorPair. -/
structure DataMonitorPair where
  exchangeID : Int
  exchangeName : String
  pairID : Int
  symbol : String
  marketType : String
deriving DecidableEq, Repr

/-- MarketPair mirrors exchange.MarketPair. -/
structure MarketPair where
  symbol : String
  pairID : Int
deriving DecidableEq, Repr

/-- DataWorkerModel is a DataWorker reduced to the subscription state that
SetSubscriptionWithPairID installs. -/
structure DataWorkerModel where
  pairs : List MarketPair
  marketType : String
  depth : Nat
deriving DecidableEq, Repr

/-- DataMonitorState is the workers map plus the metric counters. -/
structure DataMonitorState where
  workers : List (String × DataWorkerModel)
  totalStarted : Nat
  totalStopped : Nat
  totalErrors : Nat
deriving DecidableEq, Repr

/-- mkWorkerKey is the fmt.Sprintf key EXCHANGE|MARKET. -/
def mkWorkerKey (exchangeName marketType : String) : String :=
  exchangeName ++ "|" ++ marketType

/-- keyOfPair is the key of one catalog row. -/
def keyOfPair (p : DataMonitorPair) : String :=
  mkWorkerKey p.exchangeName p.marketType

/-- firstDedupAux removes later duplicates from a list, keeping first
occurrences, with an accumulator of the names already seen. -/
def firstDedupAux (seen : List (String × String)) :
    List (String × String) → List (String × String)
  | [] => []
  | x :: rest =>
    if x ∈ seen then firstDedupAux seen rest
    else x :: firstDedupAux (x :: seen) rest

/-- dmGroups lists the distinct (exchange, market type) groups of a pair
list; Go builds them as nested maps, whose key set this is. -/
def dmGroups (pairs : List DataMonitorPair) : List (String × String) :=
  firstDedupAux [] (pairs.map (fun p => (p.exchangeName, p.marketType)))

/-- groupMarketPairs collects the MarketPair entries of one group, in
catalog order, exactly as the grouping loop appends them. -/
def groupMarketPairs (pairs : List DataMonitorPair) (name market : String) :
    List MarketPair :=
  (pairs.filter (fun p => p.exchangeName = name ∧ p.marketType = market)).map
    (fun p => { symbol := p.symbol, pairID := p.pairID })

namespace DataMonitor

/-- createOrUpdate is the per-group body of the worker management loop: an
existing worker gets its subscription replaced, a missing worker is created
after a successful catalog lookup (counting a start), and a failed lookup
only counts an error. -/
def createOrUpdate (getExchange : String → Option ExchangeRecord)
    (pairs : List DataMonitorPair) (st : DataMonitorState)
    (g : String × String) : DataMonitorState :=
  let key := mkWorkerKey g.1 g.2
  let marketPairs := groupMarketPairs pairs g.1 g.2
  let w : DataWorkerModel := { pairs := marketPairs, marketType := g.2, depth := 5 }
  match assocLookup st.workers key with
  | some _ => { st with workers := updateAssoc st.workers key w }
  | none =>
    match getExchange g.1 with
    | none => { st with totalErrors := st.totalErrors + 1 }
    | some _ =>
      { st with workers := st.workers ++ [(key, w)],
                totalStarted := st.totalStarted + 1 }

/-- UpdateWorkersFromPairs mirrors DataMonitor.UpdateWorkersFromPairs: group
the catalog rows, create or update a worker per group, then stop and drop
every worker whose key no longer occurs. -/
def UpdateWorkersFromPairs (getExchange : String → Option ExchangeRecord)
    (st : DataMonitorState) (pairs : List DataMonitorPair) : DataMonitorState :=
  let actualKeys := pairs.map keyOfPair
  let afterCreate := (dmGroups pairs).foldl (createOrUpdate getExchange pairs) st
  let keep := afterCreate.workers.filter (fun kv => kv.1 ∈ actualKeys)
  { afterCreate with
      workers := keep
      totalStopped := afterCreate.totalStopped + (afterCreate.workers.length - keep.length) }

end DataMonitor

/-! Control plane (Manager in internal/app/manager.go).  StartWork is
modelled as a function of the guard flag that also reports the ordered
side effects it performs: the state-file write and the component starts. -/

/-- WorkComponent names the components StartWork spins up, in source
order. -/
inductive WorkComponent where
  | serviceDaemon : WorkComponent
  | tradeMonitor : WorkComponent
  | dataMonitor : WorkComponent
  | priceMonitor : WorkComponent
deriving DecidableEq, Repr

/-- WorkEvent is one observable side effect of StartWork: persisting the
active flag through state.SetActive, or starting a component. -/
inductive WorkEvent where
  | persistActive (active : Bool) : WorkEvent
  | startComponent (c : WorkComponent) : WorkEvent
deriving DecidableEq, Repr

/-- ManagerState is the Manager reduced to its workStarted guard flag. -/
structure ManagerState where
  workStarted : Bool
deriving DecidableEq, Repr

namespace Manager

/-- StartWork mirrors Manager.StartWork: when the guard flag is set it
returns the daemon-already-started error having done nothing; otherwise it
sets the flag, persists active and then starts the four components.  The
boolean result is true exactly when an error is returned. -/
def StartWork (st : ManagerState) : ManagerState × List WorkEvent × Bool :=
  if st.workStarted then (st, [], true)
  else
    ({ workStarted := true },
     [WorkEvent.persistActive true,
      WorkEvent.startComponent .serviceDaemon,
      WorkEvent.startComponent .tradeMonitor,
      WorkEvent.startComponent .dataMonitor,
      WorkEvent.startComponent .priceMonitor],
     false)

end Manager

/-! Derived notions used by the theorems. -/

/-- collectedRow is the row collectPriceData produces for a cached book
with both sides nonempty, written out for reuse in statements. -/
def collectedRow (pair : PriceMonitorPair) (ts : Int) (B : UnifiedOrderBook) : PriceData :=
  { pairID := pair.pairID
    priceTimestamp := ts
    date := dayTruncate ts
    asks1Price := (levelAt B.asks 0).price
    asks1Volume := (levelAt B.asks 0).volume
    asks2Price := (levelAt B.asks 1).price
    asks2Volume := (levelAt B.asks 1).volume
    asks3Price := (levelAt B.asks 2).price
    asks3Volume := (levelAt B.asks 2).volume
    asks4Price := (levelAt B.asks 3).price
    asks4Volume := (levelAt B.asks 3).volume
    asks5Price := (levelAt B.asks 4).price
    asks5Volume := (levelAt B.asks 4).volume
    bids1Price := (levelAt B.bids 0).price
    bids1Volume := (levelAt B.bids 0).volume
    bids2Price := (levelAt B.bids 1).price
    bids2Volume := (levelAt B.bids 1).volume
    bids3Price := (levelAt B.bids 2).price
    bids3Volume := (levelAt B.bids 2).volume
    bids4Price := (levelAt B.bids 3).price
    bids4Volume := (levelAt B.bids 3).volume
    bids5Price := (levelAt B.bids 4).price
    bids5Volume := (levelAt B.bids 4).volume }

/-- rowAsks lists the five ask columns of a written row as price levels, in
column order. -/
def rowAsks (pd : PriceData) : List PriceLevel :=
  [{ price := pd.asks1Price, volume := pd.asks1Volume },
   { price := pd.asks2Price, volume := pd.asks2Volume },
   { price := pd.asks3Price, volume := pd.asks3Volume },
   { price := pd.asks4Price, volume := pd.asks4Volume },
   { price := pd.asks5Price, volume := pd.asks5Volume }]

/-- rowBids lists the five bid columns of a written row as price levels, in
column order. -/
def rowBids (pd : PriceData) : List PriceLevel :=
  [{ price := pd.bids1Price, volume := pd.bids1Volume },
   { price := pd.bids2Price, volume := pd.bids2Volume },
   { price := pd.bids3Price, volume := pd.bids3Volume },
   { price := pd.bids4Price, volume := pd.bids4Volume },
   { price := pd.bids5Price, volume := pd.bids5Volume }]

/-- padToFive truncates a level list to its first five entries and pads the
rest with zero levels. -/
def padToFive (l : List PriceLevel) : List PriceLevel :=
  l.take 5 ++ List.replicate (5 - l.length) { price := 0, volume := 0 }

/-- levelAtColumns rewrites the five sequential column reads as the padded
prefix of the cached side. -/
theorem levelAtColumns (l : List PriceLevel) :
    [levelAt l 0, levelAt l 1, levelAt l 2, levelAt l 3, levelAt l 4] = padToFive l := by
  rcases l with _ | ⟨a, _ | ⟨b, _ | ⟨c, _ | ⟨d, _ | ⟨e, rest⟩⟩⟩⟩⟩ <;>
    simp [levelAt, padToFive, List.replicate]

/-- execInserts_eq_all identifies the early-exit insert loop with checking
every row. -/
theorem execInserts_eq_all (execOk : PriceData → Bool) (l : List PriceData) :
    PriceMonitor.execInserts execOk l = l.all execOk := by
  induction l with
  | nil => rfl
  | cons pd rest ih =>
    by_cases h : execOk pd = true <;>
      simp [PriceMonitor.execInserts, h, ih, List.all_cons]

/-- claim C9: when the work-started flag is already set, StartWork returns
an error and performs no action (the state is untouched and no side effect
is emitted); when the flag is clear it sets the flag and succeeds, and the
emitted side effects begin with persisting active before any component
start. -/
theorem claim_C9 (st : ManagerState) :
    (st.workStarted = true → Manager.StartWork st = (st, [], true)) ∧
    (st.workStarted = false →
      (Manager.StartWork st).1.workStarted = true ∧
      (Manager.StartWork st).2.2 = false ∧
      (Manager.StartWork st).2.1.head? = some (WorkEvent.persistActive true) ∧
      (Manager.StartWork st).2.1.tail =
        [WorkEvent.startComponent .serviceDaemon,
         WorkEvent.startComponent .tradeMonitor,
         WorkEvent.startComponent .dataMonitor,
         WorkEvent.startComponent .priceMonitor]) := by
  constructor
  · intro h
    simp [Manager.StartWork, h]
  · intro h
    simp [Manager.StartWork, h]

/-- claim C9 witness at both guard states. -/
theorem claim_C9_witness :
    (Manager.StartWork { workStarted := true } = ({ workStarted := true }, [], true)) ∧
    ((Manager.StartWork { workStarted := false }).1.workStarted = true ∧
      (Manager.StartWork { workStarted := false }).2.2 = false ∧
      (Manager.StartWork { workStarted := false }).2.1.head? =
        some (WorkEvent.persistActive true)) :=
  ⟨(claim_C9 { workStarted := true }).1 rfl,
   ((claim_C9 { workStarted := false }).2 rfl).1,
   ((claim_C9 { workStarted := false }).2 rfl).2.1,
   ((claim_C9 { workStarted := false }).2 rfl).2.2.1⟩

/-- claim C5: the sampler batch write is atomic: a true result means the
whole batch was appended to the committed table after every insert
succeeded and the commit went through, and a false result (any failure of
begin, prepare, an insert, or the commit) leaves the committed table
exactly as it was. -/
theorem claim_C5 (beginOk prepareOk : Bool) (execOk : PriceData → Bool)
    (commitOk : Bool) (committed batch : List PriceData) :
    ((PriceMonitor.savePriceData beginOk prepareOk execOk commitOk committed batch).2 = true →
      (PriceMonitor.savePriceData beginOk prepareOk execOk commitOk committed batch).1 =
        committed ++ batch ∧
      beginOk = true ∧ prepareOk = true ∧ batch.all execOk = true ∧ commitOk = true) ∧
    ((PriceMonitor.savePriceData beginOk prepareOk execOk commitOk committed batch).2 = false →
      (PriceMonitor.savePriceData beginOk prepareOk execOk commitOk committed batch).1 =
        committed) := by
  unfold PriceMonitor.savePriceData
  rcases beginOk with _ | _ <;> rcases prepareOk with _ | _ <;>
    rcases commitOk with _ | _ <;>
      rcases h : PriceMonitor.execInserts execOk batch with _ | _ <;>
        rw [execInserts_eq_all] at h <;> simp [h, ← execInserts_eq_all]

/-- mkTestRow builds a concrete price row used by sampler witnesses. -/
def mkTestRow (pid : Int) : PriceData :=
  { pairID := pid, priceTimestamp := 0, date := 0
    asks1Price := 0, asks1Volume := 0, asks2Price := 0, asks2Volume := 0
    asks3Price := 0, asks3Volume := 0, asks4Price := 0, asks4Volume := 0
    asks5Price := 0, asks5Volume := 0, bids1Price := 0, bids1Volume := 0
    bids2Price := 0, bids2Volume := 0, bids3Price := 0, bids3Volume := 0
    bids4Price := 0, bids4Volume := 0, bids5Price := 0, bids5Volume := 0 }

/-- claim C5 witness: a batch whose second insert fails is rolled back
whole, and a fully successful batch is committed whole. -/
theorem claim_C5_witness :
    ((PriceMonitor.savePriceData true true (fun pd => decide (pd.pairID = 1)) true
        [] [mkTestRow 1, mkTestRow 2]).2 = false →
      (PriceMonitor.savePriceData true true (fun pd => decide (pd.pairID = 1)) true
        [] [mkTestRow 1, mkTestRow 2]).1 = []) ∧
    ((PriceMonitor.savePriceData true true (fun _ => true) true
        [] [mkTestRow 1, mkTestRow 2]).2 = true →
      (PriceMonitor.savePriceData true true (fun _ => true) true
          [] [mkTestRow 1, mkTestRow 2]).1 = [] ++ [mkTestRow 1, mkTestRow 2] ∧
        true = true ∧ true = true ∧
        ([mkTestRow 1, mkTestRow 2].all (fun _ => true)) = true ∧ true = true) :=
  ⟨(claim_C5 true true (fun pd => decide (pd.pairID = 1)) true
      [] [mkTestRow 1, mkTestRow 2]).2,
   fun h =>
    ((claim_C5 true true (fun _ => true) true [] [mkTestRow 1, mkTestRow 2]).1 h).imp
      id (fun h2 => h2)⟩

/-- claim C8: evaluation of the concatenated-symbol split at BTCFDUSD: the
code answers quote USD (the first list element that is a proper suffix)
even though FDUSD, a longer element of the same list, is also a proper
suffix, so the chosen quote is not the longest-suffix match the
specification (and the comment above the list) describes. -/
theorem claim_C8_code_eval :
    splitConcatenatedSymbol "BTCFDUSD" = ("BTCFD", "USD") ∧
    "FDUSD" ∈ commonQuotes ∧
    goHasSuffix "BTCFDUSD" "FDUSD" = true ∧
    goLength "FDUSD" < goLength "BTCFDUSD" ∧
    goLength "USD" < goLength "FDUSD" ∧
    ParseSymbol "BTCFDUSD" "spot" =
      .ok { baseCurrency := "BTCFD", quoteCurrency := "USD", marketType := "spot",
            symbol := "BTCFD/USD", originalSymbol := "BTCFDUSD" } :=
  ⟨by decide, by decide, by decide, by decide, by decide, rfl⟩

/-- claim C4 (amended): for every monitored pair whose cached book has at
least one bid and at least one ask, the row built at a tick with timestamp
T holds exactly the first five cached bids and asks in cached order, padded
with zero levels, and carries T; moreover every row of a tick batch carries
the tick timestamp. -/
theorem claim_C4 :
    (∀ (cache : Int → Option UnifiedOrderBook) (pair : PriceMonitorPair)
        (ts : Int) (B : UnifiedOrderBook),
      cache pair.pairID = some B → B.bids ≠ [] → B.asks ≠ [] →
      ∃ pd, PriceMonitor.collectPriceData cache pair ts = some pd ∧
        rowBids pd = padToFive B.bids ∧
        rowAsks pd = padToFive B.asks ∧
        pd.priceTimestamp = ts ∧
        pd.pairID = pair.pairID) ∧
    (∀ (cache : Int → Option UnifiedOrderBook) (pairs : List PriceMonitorPair)
        (ts : Int) (pd : PriceData),
      pd ∈ PriceMonitor.collectRows cache pairs ts → pd.priceTimestamp = ts) := by
  constructor
  · intro cache pair ts B hB hbids hasks
    refine ⟨collectedRow pair ts B, ?_, ?_, ?_, rfl, rfl⟩
    · unfold PriceMonitor.collectPriceData
      rw [hB]
      dsimp only
      rw [if_neg (by simp [List.length_eq_zero, hbids, hasks])]
      rfl
    · exact levelAtColumns B.bids
    · exact levelAtColumns B.asks
  · intro cache pairs ts pd hmem
    unfold PriceMonitor.collectRows at hmem
    obtain ⟨p, _, hp⟩ := List.mem_filterMap.mp hmem
    unfold PriceMonitor.collectPriceData at hp
    rcases h : cache p.pairID with _ | B <;> rw [h] at hp
    · cases hp
    · dsimp only at hp
      by_cases hc : B.bids.length = 0 ∨ B.asks.length = 0
      · rw [if_pos hc] at hp; cases hp
      · rw [if_neg hc] at hp
        cases hp
        rfl

/-- emptyUnifiedSymbol is a zero-value symbol used by concrete inputs. -/
def emptyUnifiedSymbol : UnifiedSymbol :=
  { baseCurrency := "", quoteCurrency := "", marketType := "", symbol := "",
    originalSymbol := "" }

/-- c4book is a cached book with no bids and one ask. -/
def c4book : UnifiedOrderBook :=
  { symbol := "A/B", unifiedSymbol := emptyUnifiedSymbol, timestamp := 0,
    bids := [], asks := [{ price := 1, volume := 1 }], depth := 1,
    updateType := .snapshot }

/-- c4cache is a cache holding c4book under pair id 1. -/
def c4cache : Int → Option UnifiedOrderBook :=
  fun i => if i = 1 then some c4book else none

/-- claim C4 counterexample: pair 1 has a cached order book (with one ask
and no bids), yet the sampler builds no row at all for it — the code
skips any pair whose cached book has an empty side instead of writing a
zero-padded row as the claim states. -/
theorem claim_C4_counterexample :
    c4cache 1 = some c4book ∧
    c4book.asks ≠ [] ∧
    PriceMonitor.collectPriceData c4cache
      { exchangeID := 1, pairID := 1, exchangeName := "binance" } 0 = none :=
  ⟨rfl, by decide, rfl⟩

/-- assocLookup_cons unfolds one lookup step. -/
theorem assocLookup_cons {α : Type} (k1 : String) (v1 : α) (rest : List (String × α))
    (k : String) :
    assocLookup ((k1, v1) :: rest) k = if k1 = k then some v1 else assocLookup rest k :=
  rfl

/-- updateAssoc_cons unfolds one update step. -/
theorem updateAssoc_cons {α : Type} (k1 : String) (v1 : α) (rest : List (String × α))
    (k : String) (v : α) :
    updateAssoc ((k1, v1) :: rest) k v =
      (if k1 = k then (k1, v) else (k1, v1)) :: updateAssoc rest k v :=
  rfl

/-- assocLookup_updateAssoc_self: updating a present key makes lookups of
that key return the new value. -/
theorem assocLookup_updateAssoc_self {α : Type} (l : List (String × α)) (k : String)
    (v0 v : α) (h : assocLookup l k = some v0) :
    assocLookup (updateAssoc l k v) k = some v := by
  induction l with
  | nil => cases h
  | cons kv rest ih =>
    obtain ⟨k1, v1⟩ := kv
    rw [updateAssoc_cons]
    by_cases hk : k1 = k
    · rw [if_pos hk, assocLookup_cons, if_pos hk]
    · rw [assocLookup_cons, if_neg hk] at h
      rw [if_neg hk, assocLookup_cons, if_neg hk]
      exact ih h

/-- assocLookup_updateAssoc_ne: updating one key leaves every other key's
lookup unchanged. -/
theorem assocLookup_updateAssoc_ne {α : Type} (l : List (String × α)) (k k' : String)
    (v : α) (h : k' ≠ k) :
    assocLookup (updateAssoc l k v) k' = assocLookup l k' := by
  induction l with
  | nil => rfl
  | cons kv rest ih =>
    obtain ⟨k1, v1⟩ := kv
    rw [updateAssoc_cons]
    by_cases hk : k1 = k
    · have hne : ¬ k1 = k' := fun hh => h (hh.symm.trans hk)
      rw [if_pos hk, assocLookup_cons, if_neg hne, assocLookup_cons, if_neg hne]
      exact ih
    · by_cases hk' : k1 = k'
      · rw [if_neg hk, assocLookup_cons, if_pos hk', assocLookup_cons, if_pos hk']
      · rw [if_neg hk, assocLookup_cons, if_neg hk', assocLookup_cons, if_neg hk']
        exact ih

/-- claim C1: publishing under a topic sends the message through one
non-blocking enqueue per registered queue of that topic: each queue with
room receives the message appended (regardless of the state of the other
queues), each full queue is left unchanged, the number of warned drops is
the number of full queues, and queues of other topics are untouched. -/
theorem claim_C1 (mb : MessageBus) (exchange : String) (msg : UnifiedMessage)
    (qs : List BusQueue) (h : assocLookup mb.subscribers exchange = some qs) :
    (assocLookup (MessageBus.Publish mb exchange msg).1.subscribers exchange =
      some (qs.map (fun q => enqueueNonBlocking q msg))) ∧
    (∀ q : BusQueue, q.buffer.length < q.capacity →
      enqueueNonBlocking q msg = { q with buffer := q.buffer ++ [msg] }) ∧
    (∀ q : BusQueue, q.capacity ≤ q.buffer.length → enqueueNonBlocking q msg = q) ∧
    ((MessageBus.Publish mb exchange msg).2 =
      (qs.filter (fun q => q.capacity ≤ q.buffer.length)).length) ∧
    (∀ e' : String, e' ≠ exchange →
      assocLookup (MessageBus.Publish mb exchange msg).1.subscribers e' =
        assocLookup mb.subscribers e') := by
  refine ⟨?_, ?_, ?_, ?_, ?_⟩
  · unfold MessageBus.Publish
    rw [h]
    dsimp only
    by_cases hq : qs.isEmpty
    · rw [if_pos hq]
      rw [List.isEmpty_iff] at hq
      subst hq
      simpa using h
    · rw [if_neg hq]
      exact assocLookup_updateAssoc_self _ _ _ _ h
  · intro q hroom
    simp [enqueueNonBlocking, hroom]
  · intro q hfull
    simp [enqueueNonBlocking, Nat.not_lt.mpr hfull]
  · unfold MessageBus.Publish
    rw [h]
    dsimp only
    by_cases hq : qs.isEmpty
    · rw [if_pos hq]
      rw [List.isEmpty_iff] at hq
      subst hq
      rfl
    · rw [if_neg hq]
  · intro e' hne
    unfold MessageBus.Publish
    rw [h]
    dsimp only
    by_cases hq : qs.isEmpty
    · rw [if_pos hq]
    · rw [if_neg hq]
      exact assocLookup_updateAssoc_ne _ _ _ _ hne

/-- c1msg is a concrete message used by the bus witness. -/
def c1msg : UnifiedMessage :=
  { exchange := "binance", symbol := "BTC/USDT", unifiedSymbol := emptyUnifiedSymbol,
    messageType := .orderbook, timestamp := 0,
    data := .orderbook { symbol := "BTC/USDT", unifiedSymbol := emptyUnifiedSymbol,
                         timestamp := 0, bids := [], asks := [], depth := 0,
                         updateType := .snapshot },
    pairID := 7 }

/-- c1bus has one full queue and one queue with room under topic binance,
plus a queue under another topic. -/
def c1bus : MessageBus :=
  { subscribers :=
      [("binance", [{ capacity := 1, buffer := [c1msg] }, { capacity := 2, buffer := [] }]),
       ("htx", [{ capacity := 3, buffer := [] }])] }

/-- claim C1 witness: publishing to the two-queue topic drops for the full
queue only, delivers to the queue with room, and leaves the other topic
alone. -/
theorem claim_C1_witness :
    assocLookup c1bus.subscribers "binance" =
      some [{ capacity := 1, buffer := [c1msg] }, { capacity := 2, buffer := [] }] ∧
    (assocLookup (MessageBus.Publish c1bus "binance" c1msg).1.subscribers "binance" =
      some (([{ capacity := 1, buffer := [c1msg] },
               { capacity := 2, buffer := [] }] : List BusQueue).map
        (fun q => enqueueNonBlocking q c1msg))) ∧
    (MessageBus.Publish c1bus "binance" c1msg).2 =
      (([{ capacity := 1, buffer := [c1msg] },
          { capacity := 2, buffer := [] }] : List BusQueue).filter
        (fun q => q.capacity ≤ q.buffer.length)).length ∧
    assocLookup (MessageBus.Publish c1bus "binance" c1msg).1.subscribers "htx" =
      assocLookup c1bus.subscribers "htx" := by
  have h : assocLookup c1bus.subscribers "binance" =
      some [{ capacity := 1, buffer := [c1msg] }, { capacity := 2, buffer := [] }] := rfl
  have hmain := claim_C1 c1bus "binance" c1msg _ h
  exact ⟨h, hmain.1, hmain.2.2.2.1, hmain.2.2.2.2 "htx" (by decide)⟩

/-- c4wbook is the spec's padding scenario: three bids and seven asks. -/
def c4wbook : UnifiedOrderBook :=
  { symbol := "BTC/USDT", unifiedSymbol := emptyUnifiedSymbol, timestamp := 0,
    bids := [{ price := 3, volume := 1 }, { price := 2, volume := 1 }, { price := 1, volume := 1 }],
    asks := [{ price := 4, volume := 1 }, { price := 5, volume := 1 }, { price := 6, volume := 1 },
             { price := 7, volume := 1 }, { price := 8, volume := 1 }, { price := 9, volume := 1 },
             { price := 10, volume := 1 }],
    depth := 10, updateType := .snapshot }

/-- c4wcache holds c4wbook under pair id 2. -/
def c4wcache : Int → Option UnifiedOrderBook :=
  fun i => if i = 2 then some c4wbook else none

/-- claim C4 witness: the 3-bid 7-ask book yields a row with the three bids
then zero padding and exactly the first five asks, timestamped with the
tick. -/
theorem claim_C4_witness :
    c4wcache 2 = some c4wbook ∧ c4wbook.bids ≠ [] ∧ c4wbook.asks ≠ [] ∧
    (∃ pd, PriceMonitor.collectPriceData c4wcache
        { exchangeID := 1, pairID := 2, exchangeName := "binance" } 5 = some pd ∧
      rowBids pd = padToFive c4wbook.bids ∧
      rowAsks pd = padToFive c4wbook.asks ∧
      pd.priceTimestamp = 5 ∧
      pd.pairID = 2) :=
  ⟨rfl, by decide, by decide,
   claim_C4.1 c4wcache { exchangeID := 1, pairID := 2, exchangeName := "binance" }
     5 c4wbook rfl (by decide) (by decide)⟩

/-! Theorems about the CoinEx and Poloniex order-book paths. -/

/-- coinexDepthFrame is a depth.update frame whose params array is exactly
the triple the protocol sends. -/
def coinexDepthFrame (b : Bool) (depthJson : Json) (sym : String) : CoinexWebSocketMessage :=
  { method := "depth.update", params := Json.arr [Json.bool b, depthJson, Json.str sym], id := 0 }

/-- coinexDepthBook is the order book parseDepthUpdate builds from a decoded
depth object and a converted symbol. -/
def coinexDepthBook (b : Bool) (dd : CoinexDepthData) (u : UnifiedSymbol) (now : Int) :
    UnifiedOrderBook :=
  { symbol := u.symbol
    unifiedSymbol := u
    timestamp := now
    bids := levelsOfStringRows dd.bids
    asks := levelsOfStringRows dd.asks
    depth := (levelsOfStringRows dd.bids).length + (levelsOfStringRows dd.asks).length
    updateType := if b then .snapshot else .incremental }

/-- coinexDepthMessage is the unified message parseDepthUpdate returns. -/
def coinexDepthMessage (b : Bool) (dd : CoinexDepthData) (u : UnifiedSymbol) (now : Int) :
    UnifiedMessage :=
  { exchange := "coinex"
    symbol := u.symbol
    unifiedSymbol := u
    messageType := .orderbook
    timestamp := now
    data := .orderbook (coinexDepthBook b dd u now)
    pairID := 0 }

/-- coinexParseDepth_eq computes ParseMessage on a well-formed depth.update
frame. -/
theorem coinexParseDepth_eq (b : Bool) (depthJson : Json) (dd : CoinexDepthData)
    (sym : String) (u : UnifiedSymbol) (now : Int)
    (h1 : decodeCoinexDepthData depthJson = some dd)
    (h2 : ConvertToUnified "coinex" sym "spot" = .ok u) :
    CoinexParser.ParseMessage (coinexDepthFrame b depthJson sym) now =
      .ok (some (coinexDepthMessage b dd u now)) := by
  unfold CoinexParser.ParseMessage coinexDepthFrame
  dsimp only
  rw [if_pos rfl]
  unfold CoinexParser.parseDepthUpdate
  dsimp only
  rw [h1, h2]
  rfl

/-- poloniexBookMessage is the unified message parseOrderBook returns from a
decoded update and a converted symbol. -/
def poloniexBookMessage (u' : PoloniexOrderBookUpdate) (uni : UnifiedSymbol) (now : Int) :
    UnifiedMessage :=
  { exchange := "poloniex"
    symbol := uni.symbol
    unifiedSymbol := uni
    messageType := .orderbook
    timestamp := now
    data := .orderbook
      { symbol := uni.symbol
        unifiedSymbol := uni
        timestamp := now
        bids := levelsOfStringRows u'.bids
        asks := levelsOfStringRows u'.asks
        depth := (levelsOfStringRows u'.bids).length + (levelsOfStringRows u'.asks).length
        updateType := .incremental }
    pairID := 0 }

/-- poloniexParseBook_eq computes ParseMessage on a well-formed book
frame. -/
theorem poloniexParseBook_eq (ch : String) (dataJson entry : Json)
    (u' : PoloniexOrderBookUpdate) (uni : UnifiedSymbol) (now : Int)
    (hch : goContains ch "book" = true)
    (hentry : PoloniexParser.dataEntry dataJson = .ok entry)
    (hdec : decodePoloniexOrderBookUpdate entry = some u')
    (hconv : ConvertToUnified "poloniex" u'.symbol "spot" = .ok uni) :
    PoloniexParser.ParseMessage { channel := ch, data := dataJson } now =
      .ok (some (poloniexBookMessage u' uni now)) := by
  unfold PoloniexParser.ParseMessage
  dsimp only
  rw [if_pos hch]
  unfold PoloniexParser.parseOrderBook
  dsimp only
  rw [hentry]
  dsimp only
  rw [hdec]
  dsimp only
  rw [hconv]
  rfl

/-- claim C2: a depth.update frame whose params array is the triple of an
is-full boolean, a depth object and a symbol parses to an order-book
message whose update type is snapshot exactly when the boolean is true and
incremental exactly when it is false, with the symbol converted to unified
spot form. -/
theorem claim_C2 (b : Bool) (depthJson : Json) (dd : CoinexDepthData) (sym : String)
    (u : UnifiedSymbol) (now : Int)
    (h1 : decodeCoinexDepthData depthJson = some dd)
    (h2 : ConvertToUnified "coinex" sym "spot" = .ok u) :
    CoinexParser.ParseMessage (coinexDepthFrame b depthJson sym) now =
      .ok (some (coinexDepthMessage b dd u now)) ∧
    (coinexDepthMessage b dd u now).messageType = .orderbook ∧
    (coinexDepthMessage b dd u now).unifiedSymbol = u ∧
    ((coinexDepthBook b dd u now).updateType = .snapshot ↔ b = true) ∧
    ((coinexDepthBook b dd u now).updateType = .incremental ↔ b = false) :=
  ⟨coinexParseDepth_eq b depthJson dd sym u now h1 h2, rfl, rfl,
   by cases b <;> simp [coinexDepthBook],
   by cases b <;> simp [coinexDepthBook]⟩

/-- c2depth is the depth object of the spec's concrete CoinEx scenario. -/
def c2depth : Json :=
  Json.obj [("bids", Json.arr [Json.arr [Json.str "100", Json.str "1"]]),
            ("asks", Json.arr [Json.arr [Json.str "101", Json.str "1"]])]

/-- c2dd is its decoded form. -/
def c2dd : CoinexDepthData :=
  { asks := [["101", "1"]], bids := [["100", "1"]], last := "", time := 0, symbol := "" }

/-- c2u is the unified form of BTCUSDT on the spot market. -/
def c2u : UnifiedSymbol :=
  { baseCurrency := "BTC", quoteCurrency := "USDT", marketType := "spot",
    symbol := "BTC/USDT", originalSymbol := "BTCUSDT" }

/-- claim C2 witness: the exact frame of the spec parses to a snapshot with
symbol BTC/USDT, and flipping the boolean to false yields incremental. -/
theorem claim_C2_witness :
    c2u.symbol = "BTC/USDT" ∧
    CoinexParser.ParseMessage (coinexDepthFrame true c2depth "BTCUSDT") 0 =
      .ok (some (coinexDepthMessage true c2dd c2u 0)) ∧
    ((coinexDepthBook true c2dd c2u 0).updateType = .snapshot ↔ true = true) ∧
    CoinexParser.ParseMessage (coinexDepthFrame false c2depth "BTCUSDT") 0 =
      .ok (some (coinexDepthMessage false c2dd c2u 0)) ∧
    ((coinexDepthBook false c2dd c2u 0).updateType = .incremental ↔ false = false) :=
  ⟨rfl,
   (claim_C2 true c2depth c2dd "BTCUSDT" c2u 0 rfl rfl).1,
   (claim_C2 true c2depth c2dd "BTCUSDT" c2u 0 rfl rfl).2.2.2.1,
   (claim_C2 false c2depth c2dd "BTCUSDT" c2u 0 rfl rfl).1,
   (claim_C2 false c2depth c2dd "BTCUSDT" c2u 0 rfl rfl).2.2.2.2⟩

/-- strictDescB checks that a price list is strictly decreasing. -/
def strictDescB : List ℚ → Bool
  | [] => true
  | [_] => true
  | x :: y :: rest => decide (y < x) && strictDescB (y :: rest)

/-- strictAscB checks that a price list is strictly increasing. -/
def strictAscB : List ℚ → Bool
  | [] => true
  | [_] => true
  | x :: y :: rest => decide (x < y) && strictAscB (y :: rest)

/-- bookInvariantB is the spec's order-book invariant on a pair of level
lists: bids strictly decreasing, asks strictly increasing, every level with
positive price and nonnegative volume, and no cross at the top of book. -/
def bookInvariantB (bids asks : List PriceLevel) : Bool :=
  strictDescB (bids.map (fun l => l.price)) &&
  strictAscB (asks.map (fun l => l.price)) &&
  (bids ++ asks).all (fun l => decide (0 < l.price) && decide (0 ≤ l.volume)) &&
  (match bids, asks with
   | b0 :: _, a0 :: _ => decide (b0.price < a0.price)
   | _, _ => true)

/-- obInvariantB is the invariant applied to a parsed order book. -/
def obInvariantB (ob : UnifiedOrderBook) : Bool :=
  bookInvariantB ob.bids ob.asks

/-- parsedOrderBook extracts the order-book payload of a parse result. -/
def parsedOrderBook (r : Except String (Option UnifiedMessage)) : Option UnifiedOrderBook :=
  match r with
  | .ok (some m) =>
    match m.data with
    | .orderbook ob => some ob
    | _ => none
  | _ => none

/-- c7depth is a CoinEx depth object whose bid prices increase (a crossed,
unsorted book as the venue could send it). -/
def c7depth : Json :=
  Json.obj [("bids", Json.arr [Json.arr [Json.str "1", Json.str "1"],
                               Json.arr [Json.str "2", Json.str "1"]]),
            ("asks", Json.arr [])]

/-- claim C7 counterexample: the CoinEx parser emits an order-book message
whose bid prices are not strictly decreasing — the parsers never enforce
the claimed invariant, they reproduce whatever the venue sent. -/
theorem claim_C7_counterexample :
    (parsedOrderBook (CoinexParser.ParseMessage (coinexDepthFrame true c7depth "BTCUSDT") 0)).map
        obInvariantB = some false ∧
    (parsedOrderBook (CoinexParser.ParseMessage (coinexDepthFrame true c7depth "BTCUSDT") 0)).map
        (fun ob => ob.bids.map (fun l => l.price)) = some [1, 2] := by
  constructor <;> decide

/-- claim C7 (amended): the parsers copy the venue's levels in order — the
output sides are exactly the well-formed input rows converted through
parseFloat — so a parsed book satisfies the spec invariant exactly when the
converted venue input does; the parser itself enforces nothing.  Stated
for the two order-book paths cited by the claim (CoinEx and Poloniex). -/
theorem claim_C7 :
    (∀ (b : Bool) (depthJson : Json) (dd : CoinexDepthData) (sym : String)
        (u : UnifiedSymbol) (now : Int),
      decodeCoinexDepthData depthJson = some dd →
      ConvertToUnified "coinex" sym "spot" = .ok u →
      CoinexParser.ParseMessage (coinexDepthFrame b depthJson sym) now =
        .ok (some (coinexDepthMessage b dd u now)) ∧
      (coinexDepthBook b dd u now).bids = levelsOfStringRows dd.bids ∧
      (coinexDepthBook b dd u now).asks = levelsOfStringRows dd.asks ∧
      obInvariantB (coinexDepthBook b dd u now) =
        bookInvariantB (levelsOfStringRows dd.bids) (levelsOfStringRows dd.asks)) ∧
    (∀ (ch : String) (dataJson entry : Json) (u' : PoloniexOrderBookUpdate)
        (uni : UnifiedSymbol) (now : Int),
      goContains ch "book" = true →
      PoloniexParser.dataEntry dataJson = .ok entry →
      decodePoloniexOrderBookUpdate entry = some u' →
      ConvertToUnified "poloniex" u'.symbol "spot" = .ok uni →
      PoloniexParser.ParseMessage { channel := ch, data := dataJson } now =
        .ok (some (poloniexBookMessage u' uni now)) ∧
      obInvariantB
          { symbol := uni.symbol, unifiedSymbol := uni, timestamp := now,
            bids := levelsOfStringRows u'.bids, asks := levelsOfStringRows u'.asks,
            depth := (levelsOfStringRows u'.bids).length + (levelsOfStringRows u'.asks).length,
            updateType := .incremental } =
        bookInvariantB (levelsOfStringRows u'.bids) (levelsOfStringRows u'.asks)) :=
  ⟨fun b depthJson dd sym u now h1 h2 =>
    ⟨coinexParseDepth_eq b depthJson dd sym u now h1 h2, rfl, rfl, rfl⟩,
   fun ch dataJson entry u' uni now hch hentry hdec hconv =>
    ⟨poloniexParseBook_eq ch dataJson entry u' uni now hch hentry hdec hconv, rfl⟩⟩

/-- claim C7 witness: a well-sorted input book passes through both parsers
with its levels intact and invariant true. -/
theorem claim_C7_witness :
    (CoinexParser.ParseMessage (coinexDepthFrame true c2depth "BTCUSDT") 0 =
      .ok (some (coinexDepthMessage true c2dd c2u 0)) ∧
     (coinexDepthBook true c2dd c2u 0).bids = levelsOfStringRows c2dd.bids ∧
     (coinexDepthBook true c2dd c2u 0).asks = levelsOfStringRows c2dd.asks ∧
     obInvariantB (coinexDepthBook true c2dd c2u 0) =
       bookInvariantB (levelsOfStringRows c2dd.bids) (levelsOfStringRows c2dd.asks)) ∧
    obInvariantB (coinexDepthBook true c2dd c2u 0) = true :=
  ⟨claim_C7.1 true c2depth c2dd "BTCUSDT" c2u 0 rfl rfl, by decide⟩

/-- claim C10: the numeric-conversion helper coerces every rejected string
to zero; a row whose entries are strings always becomes a price level
(never a parse error), so a malformed numeric string inside bids or asks
yields a zero price or volume while the parse succeeds — shown for the
CoinEx and Poloniex order-book paths, whose success conditions do not
mention the numeric strings at all. -/
theorem claim_C10 :
    (∀ s : String, parseDecimal s = none → parseFloat s = 0) ∧
    (∀ (p v : String) (rest : List String) (rows : List (List String)),
      (p :: v :: rest) ∈ rows →
      { price := parseFloat p, volume := parseFloat v : PriceLevel } ∈
        levelsOfStringRows rows) ∧
    (∀ (b : Bool) (depthJson : Json) (dd : CoinexDepthData) (sym : String)
        (u : UnifiedSymbol) (now : Int),
      decodeCoinexDepthData depthJson = some dd →
      ConvertToUnified "coinex" sym "spot" = .ok u →
      CoinexParser.ParseMessage (coinexDepthFrame b depthJson sym) now =
        .ok (some (coinexDepthMessage b dd u now))) ∧
    (∀ (ch : String) (dataJson entry : Json) (u' : PoloniexOrderBookUpdate)
        (uni : UnifiedSymbol) (now : Int),
      goContains ch "book" = true →
      PoloniexParser.dataEntry dataJson = .ok entry →
      decodePoloniexOrderBookUpdate entry = some u' →
      ConvertToUnified "poloniex" u'.symbol "spot" = .ok uni →
      PoloniexParser.ParseMessage { channel := ch, data := dataJson } now =
        .ok (some (poloniexBookMessage u' uni now))) := by
  refine ⟨?_, ?_, ?_, ?_⟩
  · intro s h
    unfold parseFloat
    rw [h]
    rfl
  · intro p v rest rows hmem
    exact List.mem_filterMap.mpr ⟨p :: v :: rest, hmem, rfl⟩
  · intro b depthJson dd sym u now h1 h2
    exact coinexParseDepth_eq b depthJson dd sym u now h1 h2
  · intro ch dataJson entry u' uni now hch hentry hdec hconv
    exact poloniexParseBook_eq ch dataJson entry u' uni now hch hentry hdec hconv

/-- c10depth has a malformed bid price string. -/
def c10depth : Json :=
  Json.obj [("bids", Json.arr [Json.arr [Json.str "abc", Json.str "1"]]),
            ("asks", Json.arr [Json.arr [Json.str "101", Json.str "1"]])]

/-- c10dd is its decoded form. -/
def c10dd : CoinexDepthData :=
  { asks := [["101", "1"]], bids := [["abc", "1"]], last := "", time := 0, symbol := "" }

/-- claim C10 witness: the malformed price string abc fails to parse, is
coerced to zero, and the CoinEx frame containing it still parses to a
message whose bid level has price 0. -/
theorem claim_C10_witness :
    parseDecimal "abc" = none ∧
    parseFloat "abc" = 0 ∧
    CoinexParser.ParseMessage (coinexDepthFrame true c10depth "BTCUSDT") 0 =
      .ok (some (coinexDepthMessage true c10dd c2u 0)) ∧
    ({ price := parseFloat "abc", volume := parseFloat "1" : PriceLevel } ∈
      levelsOfStringRows c10dd.bids) ∧
    (coinexDepthBook true c10dd c2u 0).bids = [{ price := 0, volume := 1 }] :=
  ⟨by decide,
   claim_C10.1 "abc" (by decide),
   claim_C10.2.2.1 true c10depth c10dd "BTCUSDT" c2u 0 rfl rfl,
   claim_C10.2.1 "abc" "1" [] c10dd.bids (by decide),
   by decide⟩

/-! Theorems about the HTX gzip and ping handling. -/

/-- claim C3: the HTX parser inflates its input exactly when the first two
bytes are the gzip magic 0x1f 0x8b and otherwise uses the bytes as-is, and
any (possibly inflated) frame that decodes to a JSON object with a ping key
parses to no message and no error; the matching pong is produced by the
adapter's handlePingPong, not by the parser. -/
theorem claim_C3 :
    (∀ (b0 b1 : Nat) (rest : List Nat),
      hasGzipMagic (b0 :: b1 :: rest) = (b0 == 0x1f && b1 == 0x8b)) ∧
    (∀ (inflate : List Nat → Except String (List Nat)) (raw d : List Nat),
      hasGzipMagic raw = true → inflate raw = .ok d →
      HTXParser.decompressGzip inflate raw = .ok d) ∧
    (∀ (inflate : List Nat → Except String (List Nat)) (raw : List Nat),
      hasGzipMagic raw = false → HTXParser.decompressGzip inflate raw = .ok raw) ∧
    (∀ (inflate : List Nat → Except String (List Nat))
        (decode : List Nat → Option Json) (raw d : List Nat) (now : Int),
      HTXParser.decompressGzip inflate raw = .ok d →
      HTXParser.ParseMessage inflate decode raw now = HTXParser.processFrame decode d now) ∧
    (∀ (decode : List Nat → Option Json) (d : List Nat) (now : Int)
        (fields : List (String × Json)),
      decode d = some (Json.obj fields) → (assocLookup fields "ping").isSome = true →
      HTXParser.processFrame decode d now = .ok none) ∧
    (∀ (inflate : List Nat → Except String (List Nat))
        (decode : List Nat → Option Json) (raw d : List Nat)
        (fields : List (String × Json)) (v : Json),
      HTXParser.decompressGzip inflate raw = .ok d →
      decode d = some (Json.obj fields) → assocLookup fields "ping" = some v →
      HtxAdapter.handlePingPong inflate decode raw =
        (true, some (Json.obj [("pong", v)]))) := by
  refine ⟨?_, ?_, ?_, ?_, ?_, ?_⟩
  · intro b0 b1 rest
    rfl
  · intro inflate raw d hmagic hinf
    unfold HTXParser.decompressGzip
    rw [hmagic, if_pos rfl, hinf]
  · intro inflate raw hmagic
    unfold HTXParser.decompressGzip
    rw [hmagic]
    rfl
  · intro inflate decode raw d now hok
    unfold HTXParser.ParseMessage
    rw [hok]
  · intro decode d now fields hdec hping
    unfold HTXParser.processFrame
    have hpp : HTXParser.isPingPongMessage decode d = true := by
      unfold HTXParser.isPingPongMessage
      rw [hdec]
      dsimp only
      rw [hping]
      rfl
    rw [hpp, if_pos rfl]
  · intro inflate decode raw d fields v hok hdec hping
    unfold HtxAdapter.handlePingPong
    rw [hok]
    dsimp only
    rw [hdec]
    dsimp only
    rw [hping]

/-- c3pingBytes is a placeholder byte frame whose decode is the ping
object. -/
def c3pingBytes : List Nat :=
  [0x7b, 0x22, 0x70, 0x69, 0x6e, 0x67, 0x22, 0x3a, 0x31, 0x7d]

/-- c3decode is a decoder table defined only on the ping frame. -/
def c3decode : List Nat → Option Json :=
  fun d => if d = c3pingBytes then some (Json.obj [("ping", Json.num 1700000000)]) else none

/-- c3inflate is an inflater that never fires on magic-free input. -/
def c3inflate : List Nat → Except String (List Nat) :=
  fun d => .ok d

/-- claim C3 witness: the ping frame (not gzip-compressed, so used as-is)
parses to no message and no error, and the adapter answers it with the
matching pong object. -/
theorem claim_C3_witness :
    hasGzipMagic c3pingBytes = false ∧
    HTXParser.decompressGzip c3inflate c3pingBytes = .ok c3pingBytes ∧
    HTXParser.ParseMessage c3inflate c3decode c3pingBytes 0 = .ok none ∧
    HtxAdapter.handlePingPong c3inflate c3decode c3pingBytes =
      (true, some (Json.obj [("pong", Json.num 1700000000)])) := by
  have hmagic : hasGzipMagic c3pingBytes = false := by decide
  have hok : HTXParser.decompressGzip c3inflate c3pingBytes = .ok c3pingBytes :=
    claim_C3.2.2.1 c3inflate c3pingBytes hmagic
  have hdec : c3decode c3pingBytes = some (Json.obj [("ping", Json.num 1700000000)]) := by
    unfold c3decode
    rw [if_pos rfl]
  refine ⟨hmagic, hok, ?_, ?_⟩
  · rw [claim_C3.2.2.2.1 c3inflate c3decode c3pingBytes c3pingBytes 0 hok]
    exact claim_C3.2.2.2.2.1 c3decode c3pingBytes 0 _ hdec rfl
  · exact claim_C3.2.2.2.2.2 c3inflate c3decode c3pingBytes c3pingBytes _
      (Json.num 1700000000) hok hdec rfl

/-! Theorems about the supervisor reconciliation. -/

/-- workerKeys lists the keys of the workers map. -/
def workerKeys (ws : List (String × DataWorkerModel)) : List String :=
  ws.map Prod.fst

/-- workerKeys_updateAssoc: replacing a worker's subscription does not
change the key set. -/
theorem workerKeys_updateAssoc (ws : List (String × DataWorkerModel)) (k : String)
    (v : DataWorkerModel) : workerKeys (updateAssoc ws k v) = workerKeys ws := by
  induction ws with
  | nil => rfl
  | cons kv rest ih =>
    obtain ⟨k1, v1⟩ := kv
    rw [updateAssoc_cons]
    by_cases hk : k1 = k
    · rw [if_pos hk]
      simpa [workerKeys] using ih
    · rw [if_neg hk]
      simpa [workerKeys] using ih

/-- mem_workerKeys_iff_lookup: a key is in the map exactly when its lookup
answers. -/
theorem mem_workerKeys_iff_lookup (ws : List (String × DataWorkerModel)) (k : String) :
    k ∈ workerKeys ws ↔ (assocLookup ws k).isSome = true := by
  induction ws with
  | nil => simp [workerKeys, assocLookup]
  | cons kv rest ih =>
    obtain ⟨k1, v1⟩ := kv
    rw [assocLookup_cons]
    by_cases hk : k1 = k
    · subst hk
      simp [workerKeys]
    · have hne : k ≠ k1 := fun hh => hk hh.symm
      rw [if_neg hk,
        show workerKeys ((k1, v1) :: rest) = k1 :: workerKeys rest from rfl,
        List.mem_cons]
      simp only [hne, false_or]
      exact ih

/-- foldl_createOrUpdate_keys characterises the key set after the creation
loop: a key survives exactly when it was already present or some processed
group carries it and its exchange lookup succeeds. -/
theorem foldl_createOrUpdate_keys (gx : String → Option ExchangeRecord)
    (pairs : List DataMonitorPair) (groups : List (String × String))
    (st : DataMonitorState) (k : String) :
    (k ∈ workerKeys ((groups.foldl (DataMonitor.createOrUpdate gx pairs) st).workers) ↔
      k ∈ workerKeys st.workers ∨
        ∃ g ∈ groups, mkWorkerKey g.1 g.2 = k ∧ (gx g.1).isSome = true) := by
  induction groups generalizing st with
  | nil => simp
  | cons g rest ih =>
    rw [List.foldl_cons, ih]
    have hstep : (k ∈ workerKeys (DataMonitor.createOrUpdate gx pairs st g).workers ↔
        k ∈ workerKeys st.workers ∨ (mkWorkerKey g.1 g.2 = k ∧ (gx g.1).isSome = true)) := by
      unfold DataMonitor.createOrUpdate
      dsimp only
      rcases hl : assocLookup st.workers (mkWorkerKey g.1 g.2) with _ | w0
      · dsimp only
        rcases hgx : gx g.1 with _ | ex
        · dsimp only
          simp [hgx]
        · dsimp only
          have hsome : (Option.some ex).isSome = true := rfl
          simp only [workerKeys, List.map_append, List.map_cons, List.map_nil,
            List.mem_append, List.mem_singleton]
          constructor
          · rintro (hmem | hmem)
            · exact Or.inl hmem
            · exact Or.inr ⟨hmem.symm, hsome⟩
          · rintro (hmem | ⟨hmem, _⟩)
            · exact Or.inl hmem
            · exact Or.inr hmem.symm
      · dsimp only
        rw [workerKeys_updateAssoc]
        have hmem : mkWorkerKey g.1 g.2 ∈ workerKeys st.workers := by
          rw [mem_workerKeys_iff_lookup, hl]
          rfl
        constructor
        · exact Or.inl
        · rintro (hin | ⟨hk2, _⟩)
          · exact hin
          · exact hk2 ▸ hmem
    rw [hstep]
    constructor
    · rintro ((h | h) | h)
      · exact Or.inl h
      · exact Or.inr ⟨g, List.mem_cons_self g rest, h⟩
      · obtain ⟨g', hg', hrest⟩ := h
        exact Or.inr ⟨g', List.mem_cons_of_mem g hg', hrest⟩
    · rintro (h | ⟨g', hg', hrest⟩)
      · exact Or.inl (Or.inl h)
      · rcases List.mem_cons.mp hg' with hgg | hgg
        · exact Or.inl (Or.inr (hgg ▸ hrest))
        · exact Or.inr ⟨g', hgg, hrest⟩

/-- foldl_createOrUpdate_errors: when every processed group's exchange
lookup succeeds, the creation loop leaves the error counter unchanged. -/
theorem foldl_createOrUpdate_errors (gx : String → Option ExchangeRecord)
    (pairs : List DataMonitorPair) (groups : List (String × String))
    (st : DataMonitorState)
    (h : ∀ g ∈ groups, (gx g.1).isSome = true) :
    (groups.foldl (DataMonitor.createOrUpdate gx pairs) st).totalErrors = st.totalErrors := by
  induction groups generalizing st with
  | nil => rfl
  | cons g rest ih =>
    rw [List.foldl_cons]
    rw [ih _ (fun g' hg' => h g' (List.mem_cons_of_mem g hg'))]
    unfold DataMonitor.createOrUpdate
    dsimp only
    rcases hl : assocLookup st.workers (mkWorkerKey g.1 g.2) with _ | w0
    · dsimp only
      rcases hgx : gx g.1 with _ | ex
      · exact absurd (h g (List.mem_cons_self g rest)) (by rw [hgx]; decide)
      · rfl
    · rfl

/-- mem_firstDedupAux: membership in the deduplicated list. -/
theorem mem_firstDedupAux (l : List (String × String)) (seen : List (String × String))
    (a : String × String) :
    a ∈ firstDedupAux seen l ↔ a ∈ l ∧ a ∉ seen := by
  induction l generalizing seen with
  | nil => simp [firstDedupAux]
  | cons x rest ih =>
    unfold firstDedupAux
    by_cases hx : x ∈ seen
    · rw [if_pos hx, ih]
      by_cases hax : a = x
      · subst hax
        simp [hx]
      · simp [hax]
    · rw [if_neg hx]
      by_cases hax : a = x
      · subst hax
        simp [hx]
      · simp only [List.mem_cons, hax, false_or]
        rw [ih]
        simp [hax, hx]

/-- mem_dmGroups: the groups are exactly the (exchange, market) pairs of
the catalog rows. -/
theorem mem_dmGroups (pairs : List DataMonitorPair) (n m : String) :
    (n, m) ∈ dmGroups pairs ↔
      ∃ p ∈ pairs, p.exchangeName = n ∧ p.marketType = m := by
  unfold dmGroups
  rw [mem_firstDedupAux]
  simp only [List.mem_map, List.not_mem_nil, not_false_iff, and_true]
  constructor
  · rintro ⟨p, hp, heq⟩
    exact ⟨p, hp, congrArg Prod.fst heq, congrArg Prod.snd heq⟩
  · rintro ⟨p, hp, h1, h2⟩
    exact ⟨p, hp, by rw [h1, h2]⟩

/-- claim C6: after one reconciliation pass over a desired pair list, a key
is running exactly when it occurs in the desired list and either it was
already running or its venue record lookup succeeds (a failed creation
leaves the key absent); so every live worker whose key disappeared is
removed and a worker exists for every desired key whose creation
succeeded.  When every lookup succeeds the error counter is untouched. -/
theorem claim_C6 (gx : String → Option ExchangeRecord) (st : DataMonitorState)
    (pairs : List DataMonitorPair) :
    (∀ k : String,
      k ∈ workerKeys (DataMonitor.UpdateWorkersFromPairs gx st pairs).workers ↔
        ((∃ p ∈ pairs, keyOfPair p = k) ∧
         (k ∈ workerKeys st.workers ∨
          ∃ p ∈ pairs, keyOfPair p = k ∧ (gx p.exchangeName).isSome = true))) ∧
    ((∀ p ∈ pairs, (gx p.exchangeName).isSome = true) →
      (DataMonitor.UpdateWorkersFromPairs gx st pairs).totalErrors = st.totalErrors) := by
  constructor
  · intro k
    unfold DataMonitor.UpdateWorkersFromPairs
    dsimp only
    have hfilter : k ∈ workerKeys
        (((dmGroups pairs).foldl (DataMonitor.createOrUpdate gx pairs) st).workers.filter
          (fun kv => kv.1 ∈ pairs.map keyOfPair)) ↔
        k ∈ workerKeys ((dmGroups pairs).foldl (DataMonitor.createOrUpdate gx pairs) st).workers ∧
          k ∈ pairs.map keyOfPair := by
      unfold workerKeys
      simp only [List.mem_map, List.mem_filter, decide_eq_true_eq]
      constructor
      · rintro ⟨kv, ⟨hkv, hact⟩, hfst⟩
        exact ⟨⟨kv, hkv, hfst⟩, hfst ▸ hact⟩
      · rintro ⟨⟨kv, hkv, hfst⟩, hact⟩
        exact ⟨kv, ⟨hkv, hfst ▸ hact⟩, hfst⟩
    rw [hfilter, foldl_createOrUpdate_keys]
    have hact : k ∈ pairs.map keyOfPair ↔ ∃ p ∈ pairs, keyOfPair p = k := by
      simp [List.mem_map]
    have hgrp : (∃ g ∈ dmGroups pairs, mkWorkerKey g.1 g.2 = k ∧ (gx g.1).isSome = true) ↔
        ∃ p ∈ pairs, keyOfPair p = k ∧ (gx p.exchangeName).isSome = true := by
      constructor
      · rintro ⟨⟨n, m⟩, hg, hkey, hsome⟩
        obtain ⟨p, hp, h1, h2⟩ := (mem_dmGroups pairs n m).mp hg
        exact ⟨p, hp, by rw [keyOfPair, h1, h2, hkey], by rw [h1]; exact hsome⟩
      · rintro ⟨p, hp, hkey, hsome⟩
        exact ⟨(p.exchangeName, p.marketType),
          (mem_dmGroups pairs p.exchangeName p.marketType).mpr ⟨p, hp, rfl, rfl⟩,
          hkey, hsome⟩
    rw [hact, hgrp]
    constructor
    · rintro ⟨hor, hdes⟩
      exact ⟨hdes, hor⟩
    · rintro ⟨hdes, hor⟩
      exact ⟨hor, hdes⟩
  · intro h
    unfold DataMonitor.UpdateWorkersFromPairs
    dsimp only
    exact foldl_createOrUpdate_errors gx pairs (dmGroups pairs) st
      (fun g hg => by
        obtain ⟨p, hp, h1, _⟩ := (mem_dmGroups pairs g.1 g.2).mp hg
        exact h1 ▸ h p hp)

/-- gx6 is a catalog that knows only the binance venue. -/
def gx6 : String → Option ExchangeRecord :=
  fun n => if n = "binance" then some { id := 1, name := "binance" } else none

/-- st6 starts with one live worker for bybit spot. -/
def st6 : DataMonitorState :=
  { workers := [("bybit|spot", { pairs := [], marketType := "spot", depth := 5 })],
    totalStarted := 1, totalStopped := 0, totalErrors := 0 }

/-- pairs6 is a one-row catalog desiring binance spot only. -/
def pairs6 : List DataMonitorPair :=
  [{ exchangeID := 1, exchangeName := "binance", pairID := 5, symbol := "BTCUSDT",
     marketType := "spot" }]

/-- claim C6 witness: after one pass, the binance worker runs, the bybit
worker is gone, and the error counter is unchanged. -/
theorem claim_C6_witness :
    "binance|spot" ∈ workerKeys (DataMonitor.UpdateWorkersFromPairs gx6 st6 pairs6).workers ∧
    "bybit|spot" ∉ workerKeys (DataMonitor.UpdateWorkersFromPairs gx6 st6 pairs6).workers ∧
    (DataMonitor.UpdateWorkersFromPairs gx6 st6 pairs6).totalErrors = st6.totalErrors :=
  ⟨((claim_C6 gx6 st6 pairs6).1 "binance|spot").mpr
      (by
        refine ⟨⟨pairs6.head (by decide), ?_, ?_⟩, Or.inr ⟨pairs6.head (by decide), ?_, ?_, ?_⟩⟩ <;>
          decide),
   fun h => absurd (((claim_C6 gx6 st6 pairs6).1 "bybit|spot").mp h) (by decide),
   (claim_C6 gx6 st6 pairs6).2 (by decide)⟩

end CtDaemon
